import Mathlib

/-!
# Memory profiler (memprof_c.cpp): allocation registry and interceptors

A shallow embedding of the thread-safe profiler of `src/memprof_c.cpp`
(header `src/memprof_c.h`).

Modelling conventions
* `void*` and function pointers are natural numbers, `0` is `NULL`.
* `size_t` is a natural number; additions and multiplications that the
  source performs on `size_t` are reduced modulo `2 ^ 64`.
* The file-scope globals of the source form the record `State`.
* The array `allocations` is a map from indices to records; every
  subscript the source evaluates is recorded as an `Event.index`, so
  that out-of-bounds accesses are visible in the trace of a call.
* What the platform supplies is an input of the model: the answers of
  `dlsym` (`Dlsym`) and the pointer the real allocator returns for a
  call (the argument `p` of `malloc`, `calloc`, `realloc`).
* A call through a null function pointer ends the process: the run is
  marked `aborted`, and carries the state at that moment.
* Mutexes are not modelled: one intercepted call is one atomic step.
-/

namespace Memprof

/-- Registry capacity (`memprof_c.h`, line 46). `memprof_c.cpp` includes `memprof_c.hpp`,
which is not among the sources; it is taken to declare this constant and `AllocationInfo`
as `memprof_c.h` does. -/
def MAX_ALLOCATIONS_TRACKING : Nat := 1000

/-- Number of values of `size_t`. -/
def sizeMod : Nat := 2 ^ 64

/-- One registry slot: `struct AllocationInfo { void* pointer; size_t size; }`. -/
structure AllocationInfo where
  pointer : Nat
  size : Nat
deriving DecidableEq, Repr

/-- The file-scope variables of `memprof_c.cpp`, lines 5-15. -/
structure State where
  real_malloc : Nat
  real_free : Nat
  real_realloc : Nat
  real_calloc : Nat
  isMemLog : Bool
  totalAllocated : Nat
  totalFreed : Nat
  allocations : Nat → AllocationInfo
  allocationCount : Nat
  isAllocationsArrayOverflow : Bool

/-- The state at program start: every global is zero-initialised. -/
def initial : State :=
  { real_malloc := 0, real_free := 0, real_realloc := 0, real_calloc := 0,
    isMemLog := false, totalAllocated := 0, totalFreed := 0,
    allocations := fun _ => ⟨0, 0⟩, allocationCount := 0,
    isAllocationsArrayOverflow := false }

/-- The four intercepted entry points. -/
inductive Fn where
  | malloc
  | free
  | calloc
  | realloc
deriving DecidableEq, Repr

/-- What `dlsym(RTLD_NEXT, name)` answers for each of the four names
(`0` when the lookup fails). -/
structure Dlsym where
  malloc : Nat
  free : Nat
  calloc : Nat
  realloc : Nat
deriving DecidableEq, Repr

/-- The diagnostic lines the source writes with `fprintf(stderr, ...)`,
with the values substituted for their format arguments. -/
inductive Line where
  | errorLoading (f : Fn)
  | ranOut (f : Fn)
  | mallocAllocated (size p : Nat)
  | mallocFailed (size p : Nat)
  | freeFreed (freed_size ptr : Nat)
  | freeUnknown (ptr : Nat)
  | callocAllocated (bytes elements p : Nat)
  | callocFailed (bytes elements p : Nat)
  | reallocated (newSize ptr p : Nat)
  | reallocFailed (newSize ptr p : Nat)
  | stars
  | totalAllocated (n : Nat)
  | totalFreed (n : Nat)
  | currentlyAllocated (n : Nat)
  | important
deriving DecidableEq, Repr

/-- Observable effects of a call, in program order. -/
inductive Event where
  | lookup (f : Fn)
  | invoke (f : Fn) (target : Nat)
  | index (i : Nat)
  | print (l : Line)
deriving DecidableEq, Repr

/-- Result of one call: the globals afterwards, the returned pointer
(`0` for a `void` function), the effects, and whether the process ended
inside the call. -/
structure Run where
  state : State
  ret : Nat
  trace : List Event
  aborted : Bool

/-- Array store `a[i] = v`. -/
def setAt (a : Nat → AllocationInfo) (i : Nat) (v : AllocationInfo) : Nat → AllocationInfo :=
  fun j => if j = i then v else a j

/-- Unsigned subtraction `a - b` on `size_t`. -/
def subWrap (a b : Nat) : Nat := (a + sizeMod - b % sizeMod) % sizeMod

/-- One block of `init_real_functions`:
`if (!real_f) { real_f = dlsym(RTLD_NEXT, "f"); if (!real_f) { fprintf(...); ret = -1; } }`.
Returns the pointer afterwards, the effects, and whether `ret` was set to `-1`. -/
def resolveOne (f : Fn) (cur found : Nat) : Nat × List Event × Bool :=
  if cur = 0 then
    if found = 0 then (found, [Event.lookup f, Event.print (Line.errorLoading f)], true)
    else (found, [Event.lookup f], false)
  else (cur, [], false)

/-- The function `init_real_functions` (`memprof_c.cpp`, lines 37-76):
returns `ret`, the globals and the effects. -/
def init_real_functions (dl : Dlsym) (s : State) : Int × State × List Event :=
  let m := resolveOne Fn.malloc s.real_malloc dl.malloc
  let f := resolveOne Fn.free s.real_free dl.free
  let c := resolveOne Fn.calloc s.real_calloc dl.calloc
  let r := resolveOne Fn.realloc s.real_realloc dl.realloc
  (if m.2.2 || f.2.2 || c.2.2 || r.2.2 then -1 else 0,
   { s with real_malloc := m.1, real_free := f.1, real_calloc := c.1, real_realloc := r.1 },
   m.2.1 ++ f.2.1 ++ c.2.1 ++ r.2.1)

/-- The insertion block that `malloc`, `calloc` and `realloc` share:
`if (allocationCount < MAX_ALLOCATIONS_TRACKING) { allocations[allocationCount++] = {p, size}; }
 else { isAllocationsArrayOverflow = true; }`. -/
def record (s : State) (p size : Nat) : State × List Event :=
  if s.allocationCount < MAX_ALLOCATIONS_TRACKING then
    ({ s with allocations := setAt s.allocations s.allocationCount ⟨p, size⟩,
              allocationCount := s.allocationCount + 1 },
     [Event.index s.allocationCount])
  else ({ s with isAllocationsArrayOverflow := true }, [])

/-- Body of a matching iteration of the scan loop, at index `i`:
`totalFreed += allocations[i].size; allocations[i] = allocations[allocationCount - 1]; --allocationCount;`.
The iteration runs under `i < allocationCount`, so the decrement does not wrap. -/
def swapRemove (s : State) (i : Nat) : State :=
  { s with totalFreed := (s.totalFreed + (s.allocations i).size) % sizeMod,
           allocations := setAt s.allocations i (s.allocations (s.allocationCount - 1)),
           allocationCount := s.allocationCount - 1 }

/-- The scan loop of `free` and `realloc`:
`for (size_t i = 0; i < allocationCount; ++i) if (allocations[i].pointer == ptr) { ...; break; }`.
`removeLoop ptr verbose k i s` runs the loop from index `i` with `k` indices left below
`allocationCount` (the loop condition `i < allocationCount` holds exactly while `k` is positive;
the callers start it with `k = allocationCount`, `i = 0`). `verbose` says whether the matching
iteration prints the `Freed` line (it does in `free`, not in `realloc`). Returns whether a
record matched, the globals and the effects. -/
def removeLoop (ptr : Nat) (verbose : Bool) : Nat → Nat → State → Bool × State × List Event
  | 0, _, s => (false, s, [])
  | k + 1, i, s =>
    if (s.allocations i).pointer = ptr then
      (true, swapRemove s i,
        [Event.index i, Event.index i]
          ++ (if verbose then [Event.print (Line.freeFreed (s.allocations i).size ptr)] else [])
          ++ [Event.index (s.allocationCount - 1), Event.index i])
    else
      let r := removeLoop ptr verbose k (i + 1) s
      (r.1, r.2.1, Event.index i :: r.2.2)

/-- The override `malloc(size)` (`memprof_c.cpp`, lines 79-109); `p` is what the real
`malloc` returns. -/
def malloc (dl : Dlsym) (s : State) (size p : Nat) : Run :=
  let s0 := (init_real_functions dl s).2.1
  let t0 := (init_real_functions dl s).2.2
  if s0.real_malloc = 0 then ⟨s0, 0, t0 ++ [Event.invoke Fn.malloc 0], true⟩
  else
    let t1 := t0 ++ [Event.invoke Fn.malloc s0.real_malloc]
    if s0.isMemLog then
      if p ≠ 0 then
        let r := record s0 p size
        ⟨{ r.1 with totalAllocated := (r.1.totalAllocated + size) % sizeMod }, p,
          t1 ++ r.2
            ++ (if r.1.isAllocationsArrayOverflow then [Event.print (Line.ranOut Fn.malloc)] else [])
            ++ [Event.print (Line.mallocAllocated size p)], false⟩
      else ⟨s0, p, t1 ++ [Event.print (Line.mallocFailed size p)], false⟩
    else ⟨s0, p, t1, false⟩

/-- The override `free(ptr)` (`memprof_c.cpp`, lines 112-138). The real `free` is called
last, after the bookkeeping. -/
def free (dl : Dlsym) (s : State) (ptr : Nat) : Run :=
  let s0 := (init_real_functions dl s).2.1
  let t0 := (init_real_functions dl s).2.2
  let b : State × List Event :=
    if s0.isMemLog then
      let l := removeLoop ptr true s0.allocationCount 0 s0
      (l.2.1, l.2.2 ++ (if l.1 then [] else [Event.print (Line.freeUnknown ptr)]))
    else (s0, [])
  ⟨b.1, 0, t0 ++ b.2 ++ [Event.invoke Fn.free s0.real_free], decide (s0.real_free = 0)⟩

/-- The override `calloc(num, size)` (`memprof_c.cpp`, lines 141-176); `p` is what the real
`calloc` returns. The second argument of both diagnostic lines is `size`. -/
def calloc (dl : Dlsym) (s : State) (num size p : Nat) : Run :=
  let s0 := (init_real_functions dl s).2.1
  let t0 := (init_real_functions dl s).2.2
  if s0.real_calloc = 0 then ⟨s0, 0, t0 ++ [Event.invoke Fn.calloc 0], true⟩
  else
    let t1 := t0 ++ [Event.invoke Fn.calloc s0.real_calloc]
    if s0.isMemLog then
      if p ≠ 0 then
        let r := record s0 p ((num * size) % sizeMod)
        ⟨{ r.1 with totalAllocated := (r.1.totalAllocated + (num * size) % sizeMod) % sizeMod }, p,
          t1 ++ r.2
            ++ (if r.1.isAllocationsArrayOverflow then [Event.print (Line.ranOut Fn.calloc)] else [])
            ++ [Event.print (Line.callocAllocated ((num * size) % sizeMod) size p)], false⟩
      else ⟨s0, p, t1 ++ [Event.print (Line.callocFailed ((num * size) % sizeMod) size p)], false⟩
    else ⟨s0, p, t1, false⟩

/-- The bookkeeping of `realloc` under `if (p)` (`memprof_c.cpp`, lines 190-228): the three
branches `!ptr`, `!newSize`, and the combined one. -/
def reallocTrack (s : State) (ptr newSize p : Nat) : State × List Event :=
  if ptr = 0 then
    let r := record s p newSize
    ({ r.1 with totalAllocated := (r.1.totalAllocated + newSize) % sizeMod }, r.2)
  else if newSize = 0 then
    let l := removeLoop ptr false s.allocationCount 0 s
    (l.2.1, l.2.2)
  else
    let l := removeLoop ptr false s.allocationCount 0 s
    let r := record l.2.1 p newSize
    ({ r.1 with totalAllocated := (r.1.totalAllocated + newSize) % sizeMod }, l.2.2 ++ r.2)

/-- The override `realloc(ptr, newSize)` (`memprof_c.cpp`, lines 179-252); `p` is what the
real `realloc` returns. -/
def realloc (dl : Dlsym) (s : State) (ptr newSize p : Nat) : Run :=
  let s0 := (init_real_functions dl s).2.1
  let t0 := (init_real_functions dl s).2.2
  if s0.real_realloc = 0 then ⟨s0, 0, t0 ++ [Event.invoke Fn.realloc 0], true⟩
  else
    let t1 := t0 ++ [Event.invoke Fn.realloc s0.real_realloc]
    if s0.isMemLog then
      if p ≠ 0 then
        let b := reallocTrack s0 ptr newSize p
        ⟨b.1, p,
          t1 ++ b.2
            ++ (if b.1.isAllocationsArrayOverflow then [Event.print (Line.ranOut Fn.realloc)] else [])
            ++ [Event.print (Line.reallocated newSize ptr p)], false⟩
      else ⟨s0, p, t1 ++ [Event.print (Line.reallocFailed newSize ptr p)], false⟩
    else ⟨s0, p, t1, false⟩

/-- The control call `enableMemoryLogging(enable)` (`memprof_c.cpp`, lines 255-259). -/
def enableMemoryLogging (s : State) (enable : Bool) : Run :=
  ⟨{ s with isMemLog := enable }, 0, [], false⟩

/-- The control call `printMemoryUsage()` (`memprof_c.cpp`, lines 262-279). The caveat is
printed under `allocationCount >= MAX_ALLOCATIONS_TRACKING`. -/
def printMemoryUsage (s : State) : Run :=
  ⟨s, 0,
    [Event.print Line.stars,
     Event.print (Line.totalAllocated s.totalAllocated),
     Event.print (Line.totalFreed s.totalFreed),
     Event.print (Line.currentlyAllocated (subWrap s.totalAllocated s.totalFreed))]
      ++ (if MAX_ALLOCATIONS_TRACKING ≤ s.allocationCount then [Event.print Line.important] else [])
      ++ [Event.print Line.stars],
    false⟩

/-- The control call `profilerReset()` (`memprof_c.cpp`, lines 282-291); the `memset` clears
the `MAX_ALLOCATIONS_TRACKING` slots of the array. -/
def profilerReset (s : State) : Run :=
  ⟨{ s with isMemLog := false, totalAllocated := 0, totalFreed := 0, allocationCount := 0,
            isAllocationsArrayOverflow := false,
            allocations := fun i => if i < MAX_ALLOCATIONS_TRACKING then ⟨0, 0⟩ else s.allocations i },
    0, [], false⟩

/-- A call of the public interface, with the real allocator's answer where there is one. -/
inductive Call where
  | malloc (size p : Nat)
  | calloc (num size p : Nat)
  | realloc (ptr newSize p : Nat)
  | free (ptr : Nat)
  | enableMemoryLogging (enable : Bool)
  | printMemoryUsage
  | profilerReset
deriving DecidableEq, Repr

/-- One call of the public interface. -/
def step (dl : Dlsym) (s : State) : Call → Run
  | Call.malloc size p => malloc dl s size p
  | Call.calloc num size p => calloc dl s num size p
  | Call.realloc ptr newSize p => realloc dl s ptr newSize p
  | Call.free ptr => free dl s ptr
  | Call.enableMemoryLogging enable => enableMemoryLogging s enable
  | Call.printMemoryUsage => printMemoryUsage s
  | Call.profilerReset => profilerReset s

/-- A sequence of calls, one after the other; `none` when the process ends inside one. -/
def runCalls (dl : Dlsym) : State → List Call → Option State
  | s, [] => some s
  | s, c :: cs => if (step dl s c).aborted then none else runCalls dl (step dl s c).state cs

/-- States the program can be in after any sequence of calls from program start (the state a
call leaves behind is included whether or not the process survived the call). -/
inductive Reachable (dl : Dlsym) : State → Prop where
  | init : Reachable dl initial
  | step (s : State) (c : Call) : Reachable dl s → Reachable dl (step dl s c).state

/-- Address `p` is tracked with recorded size `sz`: some live slot holds `{p, sz}`. -/
def Tracked (s : State) (p sz : Nat) : Prop :=
  ∃ i, i < s.allocationCount ∧ s.allocations i = ⟨p, sz⟩

/-- The live records, slots `0 .. allocationCount - 1`, as a multiset (the registry is a set
of records, not a sequence). -/
def liveRecords (s : State) : Multiset AllocationInfo :=
  (Multiset.range s.allocationCount).map s.allocations

/-- Every live record has a non-null address. -/
def LiveNonNull (s : State) : Prop :=
  ∀ i, i < s.allocationCount → (s.allocations i).pointer ≠ 0

/-- The registry part of the globals is the same in both states: counters, array, live count
and overflow flag. -/
def SameRegistry (s t : State) : Prop :=
  t.totalAllocated = s.totalAllocated ∧ t.totalFreed = s.totalFreed
    ∧ t.allocationCount = s.allocationCount ∧ t.allocations = s.allocations
    ∧ t.isAllocationsArrayOverflow = s.isAllocationsArrayOverflow

/-- The calls `malloc(size)` answered by `p`, for a list of pairs `(size, p)`. -/
def mallocCalls (calls : List (Nat × Nat)) : List Call :=
  calls.map fun c => Call.malloc c.1 c.2

/-- The reset state with logging then enabled: `profilerReset(); enableMemoryLogging(true);`
run from any state `s`. -/
def resetEnabled (s : State) : State :=
  (enableMemoryLogging (profilerReset s).state true).state

/-- A platform on which all four lookups succeed. -/
def dlFound : Dlsym := ⟨11, 12, 13, 14⟩

/-- Program start, then `enableMemoryLogging(true)` and a `malloc(40)` answered by
address `100`: one live record `{100, 40}`. -/
def oneLive : State :=
  (malloc dlFound (enableMemoryLogging initial true).state 40 100).state

/-- A full registry whose overflow flag is set: slot `i` holds `{i + 1, 8}` for every `i`,
`allocationCount == MAX_ALLOCATIONS_TRACKING`, logging enabled. -/
def fullOverflowed : State :=
  { real_malloc := 11, real_free := 12, real_realloc := 14, real_calloc := 13,
    isMemLog := true, totalAllocated := 8008, totalFreed := 0,
    allocations := fun i => ⟨i + 1, 8⟩, allocationCount := MAX_ALLOCATIONS_TRACKING,
    isAllocationsArrayOverflow := true }

/-- The state `oneLive` after `enableMemoryLogging(false)`. -/
def oneLiveDisabled : State := (enableMemoryLogging oneLive false).state

/-- Program start, then `enableMemoryLogging(true)`: logging enabled, empty registry. -/
def loggingOn : State := (enableMemoryLogging initial true).state

/-- The diagnostic lines of a trace, in the order they were written. -/
def printed : List Event → List Line
  | [] => []
  | Event.print l :: t => l :: printed t
  | _ :: t => printed t

/-- The state after a list of calls, one after the other (the state each call leaves behind
is passed on whether or not the process survived it; compare `runCalls`). -/
def runAll (dl : Dlsym) (s : State) (cs : List Call) : State :=
  cs.foldl (fun t c => (step dl t c).state) s

/-- A run that leaves a stale record: `enableMemoryLogging(true); p = malloc(10);
enableMemoryLogging(false); free(p); enableMemoryLogging(true); q = malloc(20);` where the
real allocator answers address `5` both times (the block was free again). The registry then
holds `{5, 10}` in slot `0` and `{5, 20}` in slot `1`. -/
def staleTwice : State :=
  runAll dlFound initial
    [Call.enableMemoryLogging true, Call.malloc 10 5, Call.enableMemoryLogging false,
     Call.free 5, Call.enableMemoryLogging true, Call.malloc 20 5]

/-- Program start, `enableMemoryLogging(true)`, then `n` calls `malloc(8)` answered by the
addresses `1, 2, .., n`. -/
def filled : Nat → State
  | 0 => loggingOn
  | n + 1 => (malloc dlFound (filled n) 8 (n + 1)).state

/-- A full registry whose overflow flag is still clear: slot `i` holds `{i + 1, 8}`,
`allocationCount == MAX_ALLOCATIONS_TRACKING`, logging enabled. -/
def fullQuiet : State :=
  { real_malloc := 11, real_free := 12, real_realloc := 14, real_calloc := 13,
    isMemLog := true, totalAllocated := 8000, totalFreed := 0,
    allocations := fun i => ⟨i + 1, 8⟩, allocationCount := MAX_ALLOCATIONS_TRACKING,
    isAllocationsArrayOverflow := false }

/-- The run `r`, started in state `s`, returned `p` and counted `bytes` without storing a
record: array and live count as in `s`, overflow flag set, `totalAllocated` grown by
`bytes`, `totalFreed` as in `s`. -/
def Absorbed (s : State) (r : Run) (p bytes : Nat) : Prop :=
  r.aborted = false ∧ r.ret = p
    ∧ r.state.allocations = s.allocations
    ∧ r.state.allocationCount = s.allocationCount
    ∧ r.state.isAllocationsArrayOverflow = true
    ∧ r.state.totalAllocated = (s.totalAllocated + bytes) % sizeMod
    ∧ r.state.totalFreed = s.totalFreed

/-- A platform on which the lookup of `free` fails and the other three succeed. -/
def dlNoFree : Dlsym := ⟨11, 0, 13, 14⟩

/-- A platform on which the lookup of `malloc` fails and the other three succeed. -/
def dlNoMalloc : Dlsym := ⟨0, 12, 13, 14⟩

/-- State `t` is state `s` after the swap-remove of live slot `i`: one live record fewer, its
size added to `totalFreed`, slot `i` overwritten with the former last live record, every
other slot, `totalAllocated` and the overflow flag as in `s`; as a multiset the live records
of `s` are those of `t` and the removed record. -/
def SwapRemoved (s t : State) (i : Nat) : Prop :=
  t.allocationCount = s.allocationCount - 1
    ∧ t.totalFreed = (s.totalFreed + (s.allocations i).size) % sizeMod
    ∧ t.totalAllocated = s.totalAllocated
    ∧ t.allocations i = s.allocations (s.allocationCount - 1)
    ∧ (∀ m, m ≠ i → t.allocations m = s.allocations m)
    ∧ s.allocations i ::ₘ liveRecords t = liveRecords s
    ∧ t.isAllocationsArrayOverflow = s.isAllocationsArrayOverflow

/-- The addresses of the live records, as a multiset. -/
def liveAddresses (s : State) : Multiset Nat :=
  (liveRecords s).map AllocationInfo.pointer

/-- No two live records hold the same address. -/
def LiveDistinct (s : State) : Prop :=
  ∀ i j, i < s.allocationCount → j < s.allocationCount →
    (s.allocations i).pointer = (s.allocations j).pointer → i = j

/-- Some live record holds address `ptr`. -/
def holdsAddress (s : State) (ptr : Nat) : Bool :=
  (List.range s.allocationCount).any fun i => decide ((s.allocations i).pointer = ptr)

/-- The heap of the real allocator with block `p` handed out. -/
def heapAdd (h : Nat → Bool) (p : Nat) : Nat → Bool :=
  fun a => if a = p then true else h a

/-- The heap of the real allocator with block `p` taken back. -/
def heapRemove (h : Nat → Bool) (p : Nat) : Nat → Bool :=
  fun a => if a = p then false else h a

/-- The real allocator is not code of this repository; this is the contract of the C
library it stands for. `h a` says whether address `a` is still allocated. A non-null answer
of `malloc`, `calloc` or `realloc` is allocated afterwards; `free(ptr)` releases `ptr`; a
`realloc` that answers non-null releases the old block; a `realloc(ptr, 0)` answered `NULL`
has released `ptr`; a failed `realloc` of a positive size leaves the old block allocated.
The control calls do not touch the heap. -/
def heapStep (h : Nat → Bool) : Call → (Nat → Bool)
  | Call.malloc _ p => if p = 0 then h else heapAdd h p
  | Call.calloc _ _ p => if p = 0 then h else heapAdd h p
  | Call.realloc ptr newSize p =>
    if p ≠ 0 then heapAdd (heapRemove h ptr) p
    else if newSize = 0 then heapRemove h ptr
    else h
  | Call.free ptr => heapRemove h ptr
  | Call.enableMemoryLogging _ => h
  | Call.printMemoryUsage => h
  | Call.profilerReset => h

/-- The answer of the real allocator is not an address that is still allocated: it is
`NULL`, or the block being resized (resize in place), or an address outside the heap. -/
def freshAnswer (h : Nat → Bool) : Call → Bool
  | Call.malloc _ p => decide (p = 0) || !h p
  | Call.calloc _ _ p => decide (p = 0) || !h p
  | Call.realloc ptr _ p => decide (p = 0) || decide (p = ptr) || !h p
  | Call.free _ => true
  | Call.enableMemoryLogging _ => true
  | Call.printMemoryUsage => true
  | Call.profilerReset => true

/-- Along the calls, starting from heap `h`, every answer of the real allocator is fresh. -/
def freshRun : (Nat → Bool) → List Call → Bool
  | _, [] => true
  | h, c :: cs => freshAnswer h c && freshRun (heapStep h c) cs

/-- The registry sees the release the call makes, if any: a `free` or `realloc` of an
address held by a live record is made with logging enabled, and such a `realloc` to size
zero is not answered `NULL`. -/
def seesRelease (s : State) : Call → Bool
  | Call.free ptr => !holdsAddress s ptr || s.isMemLog
  | Call.realloc ptr newSize p =>
    !holdsAddress s ptr || (s.isMemLog && (decide (newSize ≠ 0) || decide (p ≠ 0)))
  | Call.malloc _ _ => true
  | Call.calloc _ _ _ => true
  | Call.enableMemoryLogging _ => true
  | Call.printMemoryUsage => true
  | Call.profilerReset => true

/-- Along the calls, starting from state `s`, the registry sees every release. -/
def releasesSeen (dl : Dlsym) : State → List Call → Bool
  | _, [] => true
  | s, c :: cs => seesRelease s c && releasesSeen dl (step dl s c).state cs

/-- Every live address is non-null and still allocated in heap `h`, and no two live records
hold the same address. -/
def GoodRegistry (h : Nat → Bool) (s : State) : Prop :=
  (∀ x ∈ liveAddresses s, x ≠ 0 ∧ h x = true) ∧ (liveAddresses s).Nodup

/-- A run in which the registry sees every release: two allocations, a resize that moves
the first one, its `free`, and a new allocation that gets the first address again. -/
def tidyCalls : List Call :=
  [Call.enableMemoryLogging true, Call.malloc 40 100, Call.calloc 5 20 200,
   Call.realloc 100 80 300, Call.free 300, Call.malloc 8 100]

/-- The total size of the live records. -/
def liveBytes (s : State) : Nat :=
  ((liveRecords s).map AllocationInfo.size).sum

/-- The bytes a logged call adds to `totalAllocated`: the requested size of a `malloc`,
`calloc` or `realloc` that the real allocator answered with a non-null pointer (a `realloc`
to size zero adds nothing), and nothing for the other calls. -/
def countedBytes : Call → Nat
  | Call.malloc size p => if p = 0 then 0 else size
  | Call.calloc num size p => if p = 0 then 0 else (num * size) % sizeMod
  | Call.realloc _ newSize p => if p = 0 then 0 else newSize
  | Call.free _ => 0
  | Call.enableMemoryLogging _ => 0
  | Call.printMemoryUsage => 0
  | Call.profilerReset => 0

/-- Along the calls, starting from state `s`, no addition to `totalAllocated` wraps around:
whenever a call is made with logging enabled, `totalAllocated` plus the bytes it counts
stays below `2 ^ 64`. -/
def neverWraps (dl : Dlsym) : State → List Call → Bool
  | _, [] => true
  | s, c :: cs =>
    (!s.isMemLog || decide (s.totalAllocated + countedBytes c < sizeMod))
      && neverWraps dl (step dl s c).state cs

/-- The accounting relation in `size_t` arithmetic: `totalFreed` is a `size_t` value and,
while the overflow flag is clear, `totalFreed` plus the live bytes is `totalAllocated`
modulo `2 ^ 64`. -/
def AcctMod (s : State) : Prop :=
  s.totalFreed < sizeMod
    ∧ (s.isAllocationsArrayOverflow = false →
        (s.totalFreed + liveBytes s) % sizeMod = s.totalAllocated % sizeMod)

/-- The accounting relation in exact arithmetic: `totalFreed` plus the live bytes is at most
`totalAllocated`, with equality while the overflow flag is clear, and `totalAllocated` is a
`size_t` value. -/
def AcctExact (s : State) : Prop :=
  s.totalFreed + liveBytes s ≤ s.totalAllocated
    ∧ (s.isAllocationsArrayOverflow = false →
        s.totalFreed + liveBytes s = s.totalAllocated)
    ∧ s.totalAllocated < sizeMod

/-- A run whose `totalAllocated` wraps around: `enableMemoryLogging(true); p = malloc(2^63);
free(p); q = malloc(2^63);` with the real allocator answering address `5` both times. -/
def wrapCalls : List Call :=
  [Call.enableMemoryLogging true, Call.malloc 9223372036854775808 5, Call.free 5,
   Call.malloc 9223372036854775808 5]

/-! ## The resolver leaves the registry alone -/

@[simp] theorem init_isMemLog (dl : Dlsym) (s : State) :
    (init_real_functions dl s).2.1.isMemLog = s.isMemLog := rfl

@[simp] theorem init_totalAllocated (dl : Dlsym) (s : State) :
    (init_real_functions dl s).2.1.totalAllocated = s.totalAllocated := rfl

@[simp] theorem init_totalFreed (dl : Dlsym) (s : State) :
    (init_real_functions dl s).2.1.totalFreed = s.totalFreed := rfl

@[simp] theorem init_allocations (dl : Dlsym) (s : State) :
    (init_real_functions dl s).2.1.allocations = s.allocations := rfl

@[simp] theorem init_allocationCount (dl : Dlsym) (s : State) :
    (init_real_functions dl s).2.1.allocationCount = s.allocationCount := rfl

@[simp] theorem init_overflow (dl : Dlsym) (s : State) :
    (init_real_functions dl s).2.1.isAllocationsArrayOverflow = s.isAllocationsArrayOverflow := rfl

theorem resolveOne_ne (f : Fn) (cur found : Nat) (h : found ≠ 0) :
    (resolveOne f cur found).1 ≠ 0 := by
  unfold resolveOne
  by_cases h1 : cur = 0
  · simp [h1, h]
  · simp [h1]

theorem init_real_malloc_ne (dl : Dlsym) (s : State) (h : dl.malloc ≠ 0) :
    (init_real_functions dl s).2.1.real_malloc ≠ 0 :=
  resolveOne_ne Fn.malloc s.real_malloc dl.malloc h

theorem init_real_free_ne (dl : Dlsym) (s : State) (h : dl.free ≠ 0) :
    (init_real_functions dl s).2.1.real_free ≠ 0 :=
  resolveOne_ne Fn.free s.real_free dl.free h

theorem init_real_calloc_ne (dl : Dlsym) (s : State) (h : dl.calloc ≠ 0) :
    (init_real_functions dl s).2.1.real_calloc ≠ 0 :=
  resolveOne_ne Fn.calloc s.real_calloc dl.calloc h

theorem init_real_realloc_ne (dl : Dlsym) (s : State) (h : dl.realloc ≠ 0) :
    (init_real_functions dl s).2.1.real_realloc ≠ 0 :=
  resolveOne_ne Fn.realloc s.real_realloc dl.realloc h

/-! ## Insertion -/

theorem sizeMod_pos : 0 < sizeMod := by unfold sizeMod; positivity

theorem liveRecords_setAt_succ (a : Nat → AllocationInfo) (n : Nat) (v : AllocationInfo) :
    (Multiset.range (n + 1)).map (setAt a n v) = v ::ₘ (Multiset.range n).map a := by
  rw [Multiset.range_succ, Multiset.map_cons]
  congr 1
  · simp [setAt]
  · apply Multiset.map_congr rfl
    intro m hm
    have : m ≠ n := Nat.ne_of_lt (Multiset.mem_range.mp hm)
    simp [setAt, this]

/-- A logged, successful `malloc` below capacity: what happens to each global. -/
theorem malloc_logged (dl : Dlsym) (s : State) (size p : Nat) (hdl : dl.malloc ≠ 0)
    (hlog : s.isMemLog = true) (hp : p ≠ 0) (hcap : s.allocationCount < MAX_ALLOCATIONS_TRACKING) :
    (malloc dl s size p).aborted = false
      ∧ (malloc dl s size p).state.isMemLog = true
      ∧ (malloc dl s size p).state.totalAllocated = (s.totalAllocated + size) % sizeMod
      ∧ (malloc dl s size p).state.totalFreed = s.totalFreed
      ∧ (malloc dl s size p).state.allocationCount = s.allocationCount + 1
      ∧ (malloc dl s size p).state.isAllocationsArrayOverflow = s.isAllocationsArrayOverflow
      ∧ (malloc dl s size p).state.allocations = setAt s.allocations s.allocationCount ⟨p, size⟩ := by
  have h0 := init_real_malloc_ne dl s hdl
  simp [malloc, record, h0, hlog, hp, hcap]

theorem liveRecords_malloc (dl : Dlsym) (s : State) (size p : Nat) (hdl : dl.malloc ≠ 0)
    (hlog : s.isMemLog = true) (hp : p ≠ 0) (hcap : s.allocationCount < MAX_ALLOCATIONS_TRACKING) :
    liveRecords (malloc dl s size p).state = ⟨p, size⟩ ::ₘ liveRecords s := by
  obtain ⟨_, _, _, _, hn, _, harr⟩ := malloc_logged dl s size p hdl hlog hp hcap
  unfold liveRecords
  rw [hn, harr, liveRecords_setAt_succ]

/-- A run of logged, successful `malloc` calls that fits the registry. -/
theorem runCalls_mallocs (dl : Dlsym) (hdl : dl.malloc ≠ 0) :
    ∀ (calls : List (Nat × Nat)) (s : State), s.isMemLog = true →
      s.allocationCount + calls.length ≤ MAX_ALLOCATIONS_TRACKING →
      (∀ c ∈ calls, c.2 ≠ 0) →
      ∃ s1, runCalls dl s (mallocCalls calls) = some s1
        ∧ s1.isMemLog = true
        ∧ s1.totalAllocated % sizeMod = (s.totalAllocated + (calls.map Prod.fst).sum) % sizeMod
        ∧ (s.totalAllocated < sizeMod → s1.totalAllocated < sizeMod)
        ∧ s1.totalFreed = s.totalFreed
        ∧ s1.isAllocationsArrayOverflow = s.isAllocationsArrayOverflow
        ∧ s1.allocationCount = s.allocationCount + calls.length
        ∧ liveRecords s1
            = liveRecords s + (↑(calls.map fun c => (⟨c.2, c.1⟩ : AllocationInfo)) : Multiset _)
  | [], s, hlog, _, _ => ⟨s, rfl, hlog, by simp, id, rfl, rfl, rfl, by simp⟩
  | c :: cs, s, hlog, hcap, hp => by
    have hc : s.allocationCount < MAX_ALLOCATIONS_TRACKING := by
      simp only [List.length_cons] at hcap; omega
    have hpc : c.2 ≠ 0 := hp c (List.mem_cons_self _ _)
    obtain ⟨ha, hl, hta, htf, hn, hov, _⟩ := malloc_logged dl s c.1 c.2 hdl hlog hpc hc
    have hlive := liveRecords_malloc dl s c.1 c.2 hdl hlog hpc hc
    obtain ⟨s1, hrun, h1, h2, h3, h4, h5, h6, h7⟩ :=
      runCalls_mallocs dl hdl cs (malloc dl s c.1 c.2).state hl
        (by rw [hn]; simp only [List.length_cons] at hcap; omega)
        (fun d hd => hp d (List.mem_cons_of_mem _ hd))
    refine ⟨s1, ?_, h1, ?_, ?_, ?_, ?_, ?_, ?_⟩
    · simp only [mallocCalls, List.map_cons, runCalls, step, ha]
      exact hrun
    · rw [h2, hta, Nat.mod_add_mod, List.map_cons, List.sum_cons, Nat.add_assoc]
    · intro _
      exact h3 (by rw [hta]; exact Nat.mod_lt _ sizeMod_pos)
    · rw [h4, htf]
    · rw [h5, hov]
    · rw [h6, hn, List.length_cons]; omega
    · rw [h7, hlive, List.map_cons, ← Multiset.cons_coe, Multiset.cons_add, Multiset.add_cons]

/-! ## The scan loop and the swap-remove -/

/-- What the scan loop does: either no index in `[i, i + k)` holds `ptr` and nothing changes,
or the loop stops at the first such index `j` and swap-removes it. -/
theorem removeLoop_spec (ptr : Nat) (verbose : Bool) :
    ∀ (k i : Nat) (s : State),
      ((removeLoop ptr verbose k i s).1 = false ∧ (removeLoop ptr verbose k i s).2.1 = s
          ∧ ∀ j, i ≤ j → j < i + k → (s.allocations j).pointer ≠ ptr)
      ∨ ∃ j, i ≤ j ∧ j < i + k ∧ (s.allocations j).pointer = ptr
          ∧ (∀ m, i ≤ m → m < j → (s.allocations m).pointer ≠ ptr)
          ∧ (removeLoop ptr verbose k i s).1 = true
          ∧ (removeLoop ptr verbose k i s).2.1 = swapRemove s j
  | 0, i, s => Or.inl ⟨rfl, rfl, fun j h1 h2 => by omega⟩
  | k + 1, i, s => by
    by_cases h : (s.allocations i).pointer = ptr
    · refine Or.inr ⟨i, le_refl _, by omega, h, fun m h1 h2 => by omega, ?_, ?_⟩
      · simp [removeLoop, h]
      · simp [removeLoop, h]
    · rcases removeLoop_spec ptr verbose k (i + 1) s with ⟨h1, h2, h3⟩ | ⟨j, h1, h2, h3, h4, h5, h6⟩
      · refine Or.inl ⟨?_, ?_, ?_⟩
        · simp [removeLoop, h, h1]
        · simp [removeLoop, h, h2]
        · intro j hj1 hj2
          by_cases hji : j = i
          · rw [hji]; exact h
          · exact h3 j (by omega) (by omega)
      · refine Or.inr ⟨j, by omega, by omega, h3, ?_, ?_, ?_⟩
        · intro m hm1 hm2
          by_cases hmi : m = i
          · rw [hmi]; exact h
          · exact h4 m (by omega) hm2
        · simp [removeLoop, h, h5]
        · simp [removeLoop, h, h6]

theorem map_setAt_range (a : Nat → AllocationInfo) (j : Nat) (v : AllocationInfo) :
    ∀ m, j < m →
      a j ::ₘ (Multiset.range m).map (setAt a j v) = v ::ₘ (Multiset.range m).map a
  | 0, h => absurd h (Nat.not_lt_zero _)
  | m + 1, h => by
    rw [Multiset.range_succ, Multiset.map_cons, Multiset.map_cons]
    by_cases hjm : j = m
    · subst hjm
      have hrest : (Multiset.range j).map (setAt a j v) = (Multiset.range j).map a := by
        apply Multiset.map_congr rfl
        intro x hx
        have : x ≠ j := Nat.ne_of_lt (Multiset.mem_range.mp hx)
        simp [setAt, this]
      rw [hrest]
      simp only [setAt, if_true]
      exact Multiset.cons_swap _ _ _
    · have hlt : j < m := by omega
      have hm : setAt a j v m = a m := by
        have : m ≠ j := fun e => hjm e.symm
        simp [setAt, this]
      rw [hm, Multiset.cons_swap, map_setAt_range a j v m hlt, Multiset.cons_swap]

/-- Swap-remove of a live slot takes exactly that record out of the live multiset. -/
theorem liveRecords_swapRemove (s : State) (j : Nat) (hj : j < s.allocationCount) :
    s.allocations j ::ₘ liveRecords (swapRemove s j) = liveRecords s := by
  obtain ⟨m, hm⟩ : ∃ m, s.allocationCount = m + 1 := ⟨s.allocationCount - 1, by omega⟩
  unfold liveRecords swapRemove
  simp only [hm, Nat.add_sub_cancel]
  by_cases hjm : j = m
  · subst hjm
    have : setAt s.allocations j (s.allocations j) = s.allocations := by
      funext x
      by_cases hx : x = j
      · simp [setAt, hx]
      · simp [setAt, hx]
    rw [this, Multiset.range_succ, Multiset.map_cons]
  · rw [map_setAt_range s.allocations j (s.allocations m) m (by omega), Multiset.range_succ,
      Multiset.map_cons]

theorem card_liveRecords (s : State) : Multiset.card (liveRecords s) = s.allocationCount := by
  simp [liveRecords]

theorem mem_liveRecords_pointer (s : State) (p : Nat)
    (h : p ∈ (liveRecords s).map AllocationInfo.pointer) :
    ∃ j, j < s.allocationCount ∧ (s.allocations j).pointer = p := by
  simp only [liveRecords, Multiset.map_map, Multiset.mem_map, Multiset.mem_range] at h
  obtain ⟨j, hj, hp⟩ := h
  exact ⟨j, hj, hp⟩

theorem free_state_logged (dl : Dlsym) (s : State) (ptr : Nat) (hlog : s.isMemLog = true) :
    (free dl s ptr).state
      = (removeLoop ptr true s.allocationCount 0 (init_real_functions dl s).2.1).2.1 := by
  simp [free, hlog]

theorem free_aborted (dl : Dlsym) (s : State) (ptr : Nat) (hdl : dl.free ≠ 0) :
    (free dl s ptr).aborted = false := by
  have h0 := init_real_free_ne dl s hdl
  simp [free, h0]

/-- A logged `free` of an address held by a live slot: the first such slot is swap-removed. -/
theorem free_tracked (dl : Dlsym) (s : State) (ptr : Nat) (hlog : s.isMemLog = true)
    (h : ∃ j, j < s.allocationCount ∧ (s.allocations j).pointer = ptr) :
    ∃ j, j < s.allocationCount ∧ (s.allocations j).pointer = ptr
      ∧ (∀ m, m < j → (s.allocations m).pointer ≠ ptr)
      ∧ (free dl s ptr).state = swapRemove (init_real_functions dl s).2.1 j := by
  rw [free_state_logged dl s ptr hlog]
  rcases removeLoop_spec ptr true s.allocationCount 0 (init_real_functions dl s).2.1 with
    ⟨_, _, h3⟩ | ⟨j, _, h2, h3, h4, _, h6⟩
  · obtain ⟨j, hj, hp⟩ := h
    exact absurd hp (h3 j (Nat.zero_le _) (by omega))
  · exact ⟨j, by omega, h3, fun m hm => h4 m (Nat.zero_le _) hm, h6⟩

theorem runCalls_append (dl : Dlsym) :
    ∀ (xs ys : List Call) (s : State),
      runCalls dl s (xs ++ ys) = (runCalls dl s xs).bind fun t => runCalls dl t ys
  | [], _, _ => rfl
  | x :: xs, ys, s => by
    simp only [List.cons_append, runCalls]
    by_cases h : (step dl s x).aborted = true
    · simp [h]
    · simp [h, runCalls_append dl xs ys]

/-- A run of logged `free` calls whose addresses are, with multiplicity, the addresses of
the live records: the registry ends empty and every live size has been added to
`totalFreed`. -/
theorem runCalls_frees (dl : Dlsym) (hdl : dl.free ≠ 0) :
    ∀ (frees : List Nat) (s : State), s.isMemLog = true →
      (liveRecords s).map AllocationInfo.pointer = (↑frees : Multiset Nat) →
      ∃ s2, runCalls dl s (frees.map Call.free) = some s2
        ∧ s2.allocationCount = 0
        ∧ s2.totalAllocated = s.totalAllocated
        ∧ s2.totalFreed % sizeMod
            = (s.totalFreed + ((liveRecords s).map AllocationInfo.size).sum) % sizeMod
        ∧ (s.totalFreed < sizeMod → s2.totalFreed < sizeMod)
  | [], s, _, hl => by
    have h0 : liveRecords s = 0 := by
      simpa using hl
    refine ⟨s, rfl, ?_, rfl, ?_, id⟩
    · rw [← card_liveRecords, h0]; rfl
    · rw [h0]; simp
  | p :: rest, s, hlog, hl => by
    have hmem : p ∈ (liveRecords s).map AllocationInfo.pointer := by
      rw [hl]; exact Multiset.mem_coe.mpr (List.mem_cons_self _ _)
    obtain ⟨j, hj, hp, _, hst⟩ :=
      free_tracked dl s p hlog (mem_liveRecords_pointer s p hmem)
    have hcons := liveRecords_swapRemove (init_real_functions dl s).2.1 j hj
    have hlive : s.allocations j ::ₘ liveRecords (free dl s p).state = liveRecords s := by
      rw [hst]; exact hcons
    have hl2 : (liveRecords (free dl s p).state).map AllocationInfo.pointer
        = (↑rest : Multiset Nat) := by
      rw [← hlive, Multiset.map_cons, hp, ← Multiset.cons_coe] at hl
      exact (Multiset.cons_inj_right p).mp hl
    have hlog2 : (free dl s p).state.isMemLog = true := by rw [hst]; exact hlog
    have hta : (free dl s p).state.totalAllocated = s.totalAllocated := by rw [hst]; rfl
    have htf : (free dl s p).state.totalFreed
        = (s.totalFreed + (s.allocations j).size) % sizeMod := by rw [hst]; rfl
    obtain ⟨s2, hrun, h1, h2, h3, h4⟩ := runCalls_frees dl hdl rest (free dl s p).state hlog2 hl2
    refine ⟨s2, ?_, h1, ?_, ?_, ?_⟩
    · simp only [List.map_cons, runCalls, step, free_aborted dl s p hdl]
      exact hrun
    · rw [h2, hta]
    · rw [h3, htf, Nat.mod_add_mod, ← hlive, Multiset.map_cons, Multiset.sum_cons, Nat.add_assoc]
    · intro _
      exact h4 (by rw [htf]; exact Nat.mod_lt _ sizeMod_pos)

/-- A logged, successful `calloc` below capacity: what happens to each global. -/
theorem calloc_logged (dl : Dlsym) (s : State) (num size p : Nat) (hdl : dl.calloc ≠ 0)
    (hlog : s.isMemLog = true) (hp : p ≠ 0) (hcap : s.allocationCount < MAX_ALLOCATIONS_TRACKING) :
    (calloc dl s num size p).aborted = false
      ∧ (calloc dl s num size p).state.isMemLog = true
      ∧ (calloc dl s num size p).state.totalAllocated
          = (s.totalAllocated + (num * size) % sizeMod) % sizeMod
      ∧ (calloc dl s num size p).state.totalFreed = s.totalFreed
      ∧ (calloc dl s num size p).state.allocationCount = s.allocationCount + 1
      ∧ (calloc dl s num size p).state.isAllocationsArrayOverflow = s.isAllocationsArrayOverflow
      ∧ (calloc dl s num size p).state.allocations
          = setAt s.allocations s.allocationCount ⟨p, (num * size) % sizeMod⟩ := by
  have h0 := init_real_calloc_ne dl s hdl
  simp [calloc, record, h0, hlog, hp, hcap]

/-- A logged, successful `realloc`: the state is the one the bookkeeping branches leave. -/
theorem realloc_logged (dl : Dlsym) (s : State) (ptr newSize p : Nat) (hdl : dl.realloc ≠ 0)
    (hlog : s.isMemLog = true) (hp : p ≠ 0) :
    (realloc dl s ptr newSize p).aborted = false
      ∧ (realloc dl s ptr newSize p).state
          = (reallocTrack (init_real_functions dl s).2.1 ptr newSize p).1 := by
  have h0 := init_real_realloc_ne dl s hdl
  simp [realloc, h0, hlog, hp]

@[simp] theorem resetEnabled_isMemLog (s : State) : (resetEnabled s).isMemLog = true := rfl

@[simp] theorem resetEnabled_totalAllocated (s : State) : (resetEnabled s).totalAllocated = 0 := rfl

@[simp] theorem resetEnabled_totalFreed (s : State) : (resetEnabled s).totalFreed = 0 := rfl

@[simp] theorem resetEnabled_allocationCount (s : State) :
    (resetEnabled s).allocationCount = 0 := rfl

@[simp] theorem resetEnabled_overflow (s : State) :
    (resetEnabled s).isAllocationsArrayOverflow = false := rfl

theorem runCalls_cons_ok (dl : Dlsym) (s : State) (c : Call) (cs : List Call) (t : State)
    (h : (step dl s c).aborted = false) (ht : (step dl s c).state = t) :
    runCalls dl s (c :: cs) = runCalls dl t cs := by
  simp [runCalls, h, ht]


/-! ## Shape of the state after each interceptor -/

/-- After `malloc` the globals are those the resolver left, or the logged insertion. -/
theorem malloc_state_cases (dl : Dlsym) (s : State) (size p : Nat) :
    (malloc dl s size p).state = (init_real_functions dl s).2.1
      ∨ (s.isMemLog = true ∧ p ≠ 0 ∧ (malloc dl s size p).state
          = { (record (init_real_functions dl s).2.1 p size).1 with
              totalAllocated :=
                ((record (init_real_functions dl s).2.1 p size).1.totalAllocated + size)
                  % sizeMod }) := by
  unfold malloc
  by_cases h0 : (init_real_functions dl s).2.1.real_malloc = 0
  · simp [h0]
  · by_cases hlog : s.isMemLog = true
    · by_cases hp : p = 0
      · simp [h0, hlog, hp]
      · simp [h0, hlog, hp]
    · simp [h0, hlog]

/-- After `calloc` the globals are those the resolver left, or the logged insertion of
`num * size` bytes. -/
theorem calloc_state_cases (dl : Dlsym) (s : State) (num size p : Nat) :
    (calloc dl s num size p).state = (init_real_functions dl s).2.1
      ∨ (s.isMemLog = true ∧ p ≠ 0 ∧ (calloc dl s num size p).state
          = { (record (init_real_functions dl s).2.1 p ((num * size) % sizeMod)).1 with
              totalAllocated :=
                ((record (init_real_functions dl s).2.1 p ((num * size) % sizeMod)).1.totalAllocated
                  + (num * size) % sizeMod) % sizeMod }) := by
  unfold calloc
  by_cases h0 : (init_real_functions dl s).2.1.real_calloc = 0
  · simp [h0]
  · by_cases hlog : s.isMemLog = true
    · by_cases hp : p = 0
      · simp [h0, hlog, hp]
      · simp [h0, hlog, hp]
    · simp [h0, hlog]

/-- After `realloc` the globals are those the resolver left, or what the bookkeeping
branches made of them. -/
theorem realloc_state_cases (dl : Dlsym) (s : State) (ptr newSize p : Nat) :
    (realloc dl s ptr newSize p).state = (init_real_functions dl s).2.1
      ∨ (s.isMemLog = true ∧ p ≠ 0 ∧ (realloc dl s ptr newSize p).state
          = (reallocTrack (init_real_functions dl s).2.1 ptr newSize p).1) := by
  unfold realloc
  by_cases h0 : (init_real_functions dl s).2.1.real_realloc = 0
  · simp [h0]
  · by_cases hlog : s.isMemLog = true
    · by_cases hp : p = 0
      · simp [h0, hlog, hp]
      · simp [h0, hlog, hp]
    · simp [h0, hlog]

/-- After `free` the globals are those the resolver left, or what the scan loop made of
them. -/
theorem free_state_cases (dl : Dlsym) (s : State) (ptr : Nat) :
    (s.isMemLog = false ∧ (free dl s ptr).state = (init_real_functions dl s).2.1)
      ∨ (s.isMemLog = true ∧ (free dl s ptr).state
          = (removeLoop ptr true s.allocationCount 0 (init_real_functions dl s).2.1).2.1) := by
  unfold free
  by_cases hlog : s.isMemLog = true
  · simp [hlog]
  · simp [hlog]

/-- The scan loop leaves the state alone or swap-removes one live slot holding `ptr`. -/
theorem removeLoop_state_cases (ptr : Nat) (verbose : Bool) (s : State) :
    (removeLoop ptr verbose s.allocationCount 0 s).2.1 = s
      ∨ ∃ j, j < s.allocationCount ∧ (s.allocations j).pointer = ptr
          ∧ (removeLoop ptr verbose s.allocationCount 0 s).2.1 = swapRemove s j := by
  rcases removeLoop_spec ptr verbose s.allocationCount 0 s with
    ⟨_, h2, _⟩ | ⟨j, _, h2, h3, _, _, h6⟩
  · exact Or.inl h2
  · exact Or.inr ⟨j, by omega, h3, h6⟩

/-! ## Capacity -/

theorem record_count_le (s : State) (p size : Nat)
    (h : s.allocationCount ≤ MAX_ALLOCATIONS_TRACKING) :
    (record s p size).1.allocationCount ≤ MAX_ALLOCATIONS_TRACKING := by
  unfold record
  by_cases hc : s.allocationCount < MAX_ALLOCATIONS_TRACKING
  · simp only [hc, if_true]; exact hc
  · simp only [hc, if_false]; exact h

theorem removeLoop_count_le (ptr : Nat) (verbose : Bool) (s : State) :
    (removeLoop ptr verbose s.allocationCount 0 s).2.1.allocationCount ≤ s.allocationCount := by
  rcases removeLoop_state_cases ptr verbose s with h | ⟨j, _, _, h⟩
  · rw [h]
  · rw [h]; exact Nat.sub_le _ _

theorem reallocTrack_count_le (s : State) (ptr newSize p : Nat)
    (h : s.allocationCount ≤ MAX_ALLOCATIONS_TRACKING) :
    (reallocTrack s ptr newSize p).1.allocationCount ≤ MAX_ALLOCATIONS_TRACKING := by
  unfold reallocTrack
  have hl := removeLoop_count_le ptr false s
  by_cases h1 : ptr = 0
  · simp only [h1, if_true]; exact record_count_le s p newSize h
  · by_cases h2 : newSize = 0
    · simp only [h1, h2, if_true, if_false]; omega
    · simp only [h1, h2, if_false]
      exact record_count_le _ p newSize (by omega)

/-- No call takes the live count above the capacity. -/
theorem step_count_le (dl : Dlsym) (s : State) (c : Call)
    (h : s.allocationCount ≤ MAX_ALLOCATIONS_TRACKING) :
    (step dl s c).state.allocationCount ≤ MAX_ALLOCATIONS_TRACKING := by
  have h0 : (init_real_functions dl s).2.1.allocationCount ≤ MAX_ALLOCATIONS_TRACKING := h
  cases c with
  | malloc size p =>
    rcases malloc_state_cases dl s size p with e | ⟨_, _, e⟩
    · show (malloc dl s size p).state.allocationCount ≤ _
      rw [e]; exact h
    · show (malloc dl s size p).state.allocationCount ≤ _
      rw [e]; exact record_count_le _ p size h0
  | calloc num size p =>
    rcases calloc_state_cases dl s num size p with e | ⟨_, _, e⟩
    · show (calloc dl s num size p).state.allocationCount ≤ _
      rw [e]; exact h
    · show (calloc dl s num size p).state.allocationCount ≤ _
      rw [e]; exact record_count_le _ p _ h0
  | realloc ptr newSize p =>
    rcases realloc_state_cases dl s ptr newSize p with e | ⟨_, _, e⟩
    · show (realloc dl s ptr newSize p).state.allocationCount ≤ _
      rw [e]; exact h
    · show (realloc dl s ptr newSize p).state.allocationCount ≤ _
      rw [e]; exact reallocTrack_count_le _ ptr newSize p h0
  | free ptr =>
    rcases free_state_cases dl s ptr with ⟨_, e⟩ | ⟨_, e⟩
    · show (free dl s ptr).state.allocationCount ≤ _
      rw [e]; exact h
    · show (free dl s ptr).state.allocationCount ≤ _
      rw [e]
      exact le_trans (removeLoop_count_le ptr true (init_real_functions dl s).2.1) h
  | enableMemoryLogging enable => exact h
  | printMemoryUsage => exact h
  | profilerReset => exact Nat.zero_le _

theorem reachable_count_le (dl : Dlsym) (s : State) (h : Reachable dl s) :
    s.allocationCount ≤ MAX_ALLOCATIONS_TRACKING := by
  induction h with
  | init => exact Nat.zero_le _
  | step s c _ ih => exact step_count_le dl s c ih


/-! ## Array subscripts -/

theorem resolveOne_no_index (f : Fn) (cur found e : Nat) :
    Event.index e ∉ (resolveOne f cur found).2.1 := by
  unfold resolveOne
  by_cases h1 : cur = 0
  · by_cases h2 : found = 0
    · simp [h1, h2]
    · simp [h1, h2]
  · simp [h1]

theorem init_no_index (dl : Dlsym) (s : State) (e : Nat) :
    Event.index e ∉ (init_real_functions dl s).2.2 := by
  simp only [init_real_functions, List.mem_append, not_or]
  exact ⟨⟨⟨resolveOne_no_index _ _ _ e, resolveOne_no_index _ _ _ e⟩,
    resolveOne_no_index _ _ _ e⟩, resolveOne_no_index _ _ _ e⟩

theorem record_index_lt (s : State) (p size e : Nat) (h : Event.index e ∈ (record s p size).2) :
    e < MAX_ALLOCATIONS_TRACKING := by
  unfold record at h
  by_cases hc : s.allocationCount < MAX_ALLOCATIONS_TRACKING
  · simp only [hc, if_true, List.mem_singleton, Event.index.injEq] at h
    rw [h]; exact hc
  · simp [hc] at h

/-- Every subscript of the scan loop is below the live count. -/
theorem removeLoop_index_lt (ptr : Nat) (verbose : Bool) (e : Nat) :
    ∀ (k i : Nat) (s : State), i + k ≤ s.allocationCount →
      Event.index e ∈ (removeLoop ptr verbose k i s).2.2 → e < s.allocationCount
  | 0, _, _, _, h => by simp [removeLoop] at h
  | k + 1, i, s, hk, h => by
    by_cases hm : (s.allocations i).pointer = ptr
    · cases verbose <;> simp [removeLoop, hm] at h <;> omega
    · simp only [removeLoop, hm, if_false, List.mem_cons, Event.index.injEq] at h
      rcases h with h | h
      · omega
      · exact removeLoop_index_lt ptr verbose e k (i + 1) s (by omega) h

theorem reallocTrack_index_lt (s : State) (ptr newSize p e : Nat)
    (hcap : s.allocationCount ≤ MAX_ALLOCATIONS_TRACKING)
    (h : Event.index e ∈ (reallocTrack s ptr newSize p).2) : e < MAX_ALLOCATIONS_TRACKING := by
  unfold reallocTrack at h
  have hl := removeLoop_index_lt ptr false e s.allocationCount 0 s (by omega)
  by_cases h1 : ptr = 0
  · simp only [h1, if_true] at h; exact record_index_lt s p newSize e h
  · by_cases h2 : newSize = 0
    · simp only [h1, h2, if_true, if_false] at h
      exact lt_of_lt_of_le (hl h) hcap
    · simp only [h1, h2, if_false, List.mem_append] at h
      rcases h with h | h
      · exact lt_of_lt_of_le (hl h) hcap
      · exact record_index_lt _ p newSize e h

/-- Every array subscript a call evaluates is below the capacity, when the live count is. -/
theorem step_index_lt (dl : Dlsym) (s : State) (c : Call) (e : Nat)
    (hcap : s.allocationCount ≤ MAX_ALLOCATIONS_TRACKING)
    (h : Event.index e ∈ (step dl s c).trace) : e < MAX_ALLOCATIONS_TRACKING := by
  have hi := init_no_index dl s e
  cases c with
  | malloc size p =>
    simp only [step, malloc] at h
    split_ifs at h <;> simp [hi] at h <;> exact record_index_lt _ p size e h
  | calloc num size p =>
    simp only [step, calloc] at h
    split_ifs at h <;> simp [hi] at h <;> exact record_index_lt _ p _ e h
  | realloc ptr newSize p =>
    simp only [step, realloc] at h
    split_ifs at h <;> simp [hi] at h <;>
      exact reallocTrack_index_lt (init_real_functions dl s).2.1 ptr newSize p e hcap h
  | free ptr =>
    simp only [step, free] at h
    split_ifs at h <;> simp [hi] at h <;>
      exact lt_of_lt_of_le
        (removeLoop_index_lt ptr true e s.allocationCount 0 (init_real_functions dl s).2.1
          (by simp) h) hcap
  | enableMemoryLogging enable => simp [step, enableMemoryLogging] at h
  | printMemoryUsage =>
    simp only [step, printMemoryUsage] at h
    split_ifs at h <;> simp at h
  | profilerReset => simp [step, profilerReset] at h


/-! ## The overflow flag -/

theorem record_overflow_sticky (s : State) (p size : Nat)
    (h : s.isAllocationsArrayOverflow = true) :
    (record s p size).1.isAllocationsArrayOverflow = true := by
  unfold record
  by_cases hc : s.allocationCount < MAX_ALLOCATIONS_TRACKING
  · simp only [hc, if_true]; exact h
  · simp only [hc, if_false]

theorem removeLoop_overflow (ptr : Nat) (verbose : Bool) (s : State) :
    (removeLoop ptr verbose s.allocationCount 0 s).2.1.isAllocationsArrayOverflow
      = s.isAllocationsArrayOverflow := by
  rcases removeLoop_state_cases ptr verbose s with h | ⟨j, _, _, h⟩
  · rw [h]
  · rw [h]; rfl

theorem reallocTrack_overflow_sticky (s : State) (ptr newSize p : Nat)
    (h : s.isAllocationsArrayOverflow = true) :
    (reallocTrack s ptr newSize p).1.isAllocationsArrayOverflow = true := by
  unfold reallocTrack
  have hl := removeLoop_overflow ptr false s
  by_cases h1 : ptr = 0
  · simp only [h1, if_true]; exact record_overflow_sticky s p newSize h
  · by_cases h2 : newSize = 0
    · simp only [h1, h2, if_true, if_false]; rw [hl]; exact h
    · simp only [h1, h2, if_false]
      exact record_overflow_sticky _ p newSize (by rw [hl]; exact h)


/-! ## Live records have non-null addresses -/

theorem record_liveNonNull (s : State) (p size : Nat) (hp : p ≠ 0) (h : LiveNonNull s) :
    LiveNonNull (record s p size).1 := by
  unfold record
  by_cases hc : s.allocationCount < MAX_ALLOCATIONS_TRACKING
  · simp only [hc, if_true]
    intro i hi
    by_cases hin : i = s.allocationCount
    · simp [setAt, hin, hp]
    · have hlt : i < s.allocationCount := by
        have : i < s.allocationCount + 1 := hi
        omega
      simp only [setAt, hin, if_false]
      exact h i hlt
  · simp only [hc, if_false]
    exact h

theorem swapRemove_liveNonNull (s : State) (j : Nat) (hj : j < s.allocationCount)
    (h : LiveNonNull s) : LiveNonNull (swapRemove s j) := by
  intro i hi
  have hi2 : i < s.allocationCount - 1 := hi
  show (setAt s.allocations j (s.allocations (s.allocationCount - 1)) i).pointer ≠ 0
  by_cases hij : i = j
  · simp only [setAt, hij, if_true]
    exact h _ (by omega)
  · simp only [setAt, hij, if_false]
    exact h i (by omega)

theorem removeLoop_liveNonNull (ptr : Nat) (verbose : Bool) (s : State) (h : LiveNonNull s) :
    LiveNonNull (removeLoop ptr verbose s.allocationCount 0 s).2.1 := by
  rcases removeLoop_state_cases ptr verbose s with e | ⟨j, hj, _, e⟩
  · rw [e]; exact h
  · rw [e]; exact swapRemove_liveNonNull s j hj h

theorem reallocTrack_liveNonNull (s : State) (ptr newSize p : Nat) (hp : p ≠ 0)
    (h : LiveNonNull s) : LiveNonNull (reallocTrack s ptr newSize p).1 := by
  unfold reallocTrack
  have hl := removeLoop_liveNonNull ptr false s h
  by_cases h1 : ptr = 0
  · simp only [h1, if_true]; exact record_liveNonNull s p newSize hp h
  · by_cases h2 : newSize = 0
    · simp only [h1, h2, if_true, if_false]; exact hl
    · simp only [h1, h2, if_false]
      exact record_liveNonNull _ p newSize hp hl

theorem step_liveNonNull (dl : Dlsym) (s : State) (c : Call) (h : LiveNonNull s) :
    LiveNonNull (step dl s c).state := by
  have h0 : LiveNonNull (init_real_functions dl s).2.1 := h
  cases c with
  | malloc size p =>
    show LiveNonNull (malloc dl s size p).state
    rcases malloc_state_cases dl s size p with e | ⟨_, hp, e⟩
    · rw [e]; exact h
    · rw [e]; exact record_liveNonNull _ p size hp h0
  | calloc num size p =>
    show LiveNonNull (calloc dl s num size p).state
    rcases calloc_state_cases dl s num size p with e | ⟨_, hp, e⟩
    · rw [e]; exact h
    · rw [e]; exact record_liveNonNull _ p _ hp h0
  | realloc ptr newSize p =>
    show LiveNonNull (realloc dl s ptr newSize p).state
    rcases realloc_state_cases dl s ptr newSize p with e | ⟨_, hp, e⟩
    · rw [e]; exact h
    · rw [e]; exact reallocTrack_liveNonNull _ ptr newSize p hp h0
  | free ptr =>
    show LiveNonNull (free dl s ptr).state
    rcases free_state_cases dl s ptr with ⟨_, e⟩ | ⟨_, e⟩
    · rw [e]; exact h
    · rw [e]; exact removeLoop_liveNonNull ptr true _ h0
  | enableMemoryLogging enable => exact h
  | printMemoryUsage => exact h
  | profilerReset => exact fun i hi => absurd hi (Nat.not_lt_zero i)

theorem reachable_liveNonNull (dl : Dlsym) (s : State) (h : Reachable dl s) : LiveNonNull s := by
  induction h with
  | init => exact fun i hi => absurd hi (Nat.not_lt_zero i)
  | step s c _ ih => exact step_liveNonNull dl s c ih

/-- With no live null address, `free(NULL)` leaves the globals as the resolver left them. -/
theorem free_null_state (dl : Dlsym) (s : State) (h : LiveNonNull s) :
    (free dl s 0).state = (init_real_functions dl s).2.1 := by
  rcases free_state_cases dl s 0 with ⟨_, e⟩ | ⟨_, e⟩
  · exact e
  · rw [e]
    rcases removeLoop_state_cases 0 true (init_real_functions dl s).2.1 with e2 | ⟨j, hj, hp, _⟩
    · exact e2
    · exact absurd hp (h j hj)

/-! ## Diagnostic lines -/

theorem printed_append (a b : List Event) : printed (a ++ b) = printed a ++ printed b := by
  induction a with
  | nil => rfl
  | cons e t ih =>
    cases e <;> simp [printed, ih]

/-- A scan that matches nothing reports no match and prints nothing. -/
theorem removeLoop_no_match (ptr : Nat) (verbose : Bool) :
    ∀ (k i : Nat) (s : State),
      (∀ j, i ≤ j → j < i + k → (s.allocations j).pointer ≠ ptr) →
      (removeLoop ptr verbose k i s).1 = false
        ∧ (removeLoop ptr verbose k i s).2.1 = s
        ∧ printed (removeLoop ptr verbose k i s).2.2 = []
  | 0, _, _, _ => ⟨rfl, rfl, rfl⟩
  | k + 1, i, s, h => by
    have hi : (s.allocations i).pointer ≠ ptr := h i (le_refl _) (by omega)
    obtain ⟨h1, h2, h3⟩ :=
      removeLoop_no_match ptr verbose k (i + 1) s (fun j hj1 hj2 => h j (by omega) (by omega))
    simp only [removeLoop, hi, if_false]
    exact ⟨h1, h2, by simp [printed, h3]⟩


theorem mem_printed (l : Line) : ∀ t : List Event, l ∈ printed t ↔ Event.print l ∈ t
  | [] => by simp [printed]
  | e :: t => by
    cases e <;> simp [printed, mem_printed l t]

theorem resolveOne_printed (f : Fn) (cur found : Nat) (l : Line)
    (h : l ∈ printed (resolveOne f cur found).2.1) : l = Line.errorLoading f := by
  unfold resolveOne at h
  by_cases h1 : cur = 0
  · by_cases h2 : found = 0
    · simpa [h1, h2, printed] using h
    · simp [h1, h2, printed] at h
  · simp [h1, printed] at h

/-- The resolver writes nothing but `ERROR loading` lines. -/
theorem init_printed (dl : Dlsym) (s : State) (l : Line)
    (h : l ∈ printed (init_real_functions dl s).2.2) : ∃ f, l = Line.errorLoading f := by
  simp only [init_real_functions, printed_append, List.mem_append] at h
  rcases h with ((h | h) | h) | h
  · exact ⟨_, resolveOne_printed _ _ _ l h⟩
  · exact ⟨_, resolveOne_printed _ _ _ l h⟩
  · exact ⟨_, resolveOne_printed _ _ _ l h⟩
  · exact ⟨_, resolveOne_printed _ _ _ l h⟩

/-! ## Sample runs -/

theorem reachable_runAll (dl : Dlsym) :
    ∀ (cs : List Call) (s : State), Reachable dl s → Reachable dl (runAll dl s cs)
  | [], _, h => h
  | c :: cs, s, h => reachable_runAll dl cs (step dl s c).state (Reachable.step s c h)

theorem reachable_staleTwice : Reachable dlFound staleTwice :=
  reachable_runAll dlFound _ initial Reachable.init

theorem reachable_filled : ∀ n, Reachable dlFound (filled n)
  | 0 => Reachable.step initial (Call.enableMemoryLogging true) Reachable.init
  | n + 1 => Reachable.step (filled n) (Call.malloc 8 (n + 1)) (reachable_filled n)

/-! ## Insertion below capacity -/

theorem record_below (s : State) (p size : Nat)
    (hcap : s.allocationCount < MAX_ALLOCATIONS_TRACKING) :
    (record s p size).1
      = { s with allocations := setAt s.allocations s.allocationCount ⟨p, size⟩,
                 allocationCount := s.allocationCount + 1 } := by
  simp [record, hcap]

theorem record_full (s : State) (p size : Nat)
    (hcap : ¬ s.allocationCount < MAX_ALLOCATIONS_TRACKING) :
    (record s p size).1 = { s with isAllocationsArrayOverflow := true } := by
  simp [record, hcap]

/-! ## Insertion at capacity -/

theorem malloc_full (dl : Dlsym) (s : State) (size p : Nat) (hdl : dl.malloc ≠ 0)
    (hlog : s.isMemLog = true) (hp : p ≠ 0)
    (hfull : ¬ s.allocationCount < MAX_ALLOCATIONS_TRACKING) :
    Absorbed s (malloc dl s size p) p size := by
  have h0 := init_real_malloc_ne dl s hdl
  simp [Absorbed, malloc, record, h0, hlog, hp, hfull]

theorem calloc_full (dl : Dlsym) (s : State) (num size p : Nat) (hdl : dl.calloc ≠ 0)
    (hlog : s.isMemLog = true) (hp : p ≠ 0)
    (hfull : ¬ s.allocationCount < MAX_ALLOCATIONS_TRACKING) :
    Absorbed s (calloc dl s num size p) p ((num * size) % sizeMod) := by
  have h0 := init_real_calloc_ne dl s hdl
  simp [Absorbed, calloc, record, h0, hlog, hp, hfull]

theorem realloc_null_full (dl : Dlsym) (s : State) (size p : Nat) (hdl : dl.realloc ≠ 0)
    (hlog : s.isMemLog = true) (hp : p ≠ 0)
    (hfull : ¬ s.allocationCount < MAX_ALLOCATIONS_TRACKING) :
    Absorbed s (realloc dl s 0 size p) p size := by
  have h0 := init_real_realloc_ne dl s hdl
  simp [Absorbed, realloc, reallocTrack, record, h0, hlog, hp, hfull]

/-! ## Filling the registry -/

theorem step_free (dl : Dlsym) (s : State) (ptr : Nat) :
    step dl s (Call.free ptr) = free dl s ptr := rfl

theorem filled_succ (n : Nat) :
    filled (n + 1) = (malloc dlFound (filled n) 8 (n + 1)).state := rfl

theorem filled_below : ∀ n, n ≤ MAX_ALLOCATIONS_TRACKING →
    (filled n).isMemLog = true ∧ (filled n).allocationCount = n
      ∧ (filled n).isAllocationsArrayOverflow = false
      ∧ (0 < n → (filled n).allocations 0 = ⟨1, 8⟩)
  | 0, _ => ⟨rfl, rfl, rfl, fun h => absurd h (lt_irrefl _)⟩
  | n + 1, hn => by
    obtain ⟨hlog, hcnt, hov, hslot⟩ := filled_below n (by omega)
    obtain ⟨_, l1, _, _, n1, o1, a1⟩ :=
      malloc_logged dlFound (filled n) 8 (n + 1) (by decide) hlog (Nat.succ_ne_zero n)
        (by rw [hcnt]; omega)
    rw [filled_succ]
    refine ⟨l1, by rw [n1, hcnt], by rw [o1, hov], fun _ => ?_⟩
    rw [a1, hcnt]
    by_cases h0 : n = 0
    · subst h0; simp [setAt]
    · have : (0 : Nat) ≠ n := fun e => h0 e.symm
      simp only [setAt, this, if_false]
      exact hslot (by omega)

theorem filled_over (n : Nat) (hn : n = MAX_ALLOCATIONS_TRACKING) :
    (filled (n + 1)).isMemLog = true
      ∧ (filled (n + 1)).allocationCount = n
      ∧ (filled (n + 1)).isAllocationsArrayOverflow = true
      ∧ (filled (n + 1)).allocations 0 = ⟨1, 8⟩ := by
  obtain ⟨hlog, hcnt, _, hslot⟩ := filled_below n (le_of_eq hn)
  have hpos : 0 < n := by rw [hn]; decide
  have hfull : ¬ (filled n).allocationCount < MAX_ALLOCATIONS_TRACKING := by
    rw [hcnt, hn]; exact lt_irrefl _
  rw [filled_succ]
  obtain ⟨_, _, ha, hc, ho, _, _⟩ :=
    malloc_full dlFound (filled n) 8 (n + 1) (by decide) hlog (Nat.succ_ne_zero _) hfull
  have hl : (malloc dlFound (filled n) 8 (n + 1)).state.isMemLog = true := by
    rcases malloc_state_cases dlFound (filled n) 8 (n + 1) with e | ⟨_, _, e⟩
    · rw [e, init_isMemLog]; exact hlog
    · rw [e, record_full _ _ _ (by rw [init_allocationCount]; exact hfull)]
      simp only [init_isMemLog]
      exact hlog
  exact ⟨hl, hc.trans hcnt, ho, by rw [ha]; exact hslot hpos⟩

theorem overflowed_then_freed (n : Nat) (hn : n = MAX_ALLOCATIONS_TRACKING) :
    (step dlFound (filled (n + 1)) (Call.free 1)).state.allocationCount = n - 1
      ∧ (step dlFound (filled (n + 1)) (Call.free 1)).state.isAllocationsArrayOverflow
          = true := by
  obtain ⟨hlog, hcnt, hov, hslot⟩ := filled_over n hn
  have hpos : 0 < n := by rw [hn]; decide
  obtain ⟨j, _, _, _, hst⟩ :=
    free_tracked dlFound (filled (n + 1)) 1 hlog ⟨0, by rw [hcnt]; exact hpos, by rw [hslot]⟩
  rw [step_free, hst]
  simp only [swapRemove, init_allocationCount, init_overflow, hcnt, hov, and_self]

/-! ## The usage summary -/

/-- The caveat line is written exactly when the live count has reached the capacity. -/
theorem printMemoryUsage_important (s : State) :
    Event.print Line.important ∈ (printMemoryUsage s).trace
      ↔ MAX_ALLOCATIONS_TRACKING ≤ s.allocationCount := by
  unfold printMemoryUsage
  by_cases h : MAX_ALLOCATIONS_TRACKING ≤ s.allocationCount
  · simp [h]
  · simp [h]

/-- The three counters are always written. -/
theorem printMemoryUsage_counters (s : State) :
    Event.print (Line.totalAllocated s.totalAllocated) ∈ (printMemoryUsage s).trace
      ∧ Event.print (Line.totalFreed s.totalFreed) ∈ (printMemoryUsage s).trace
      ∧ Event.print (Line.currentlyAllocated (subWrap s.totalAllocated s.totalFreed))
          ∈ (printMemoryUsage s).trace := by
  simp [printMemoryUsage]


/-- The caveat line at exactly full and after an overflow followed by a `free`, for the
capacity `n`. -/
theorem caveat_at_capacity (n : Nat) (hn : n = MAX_ALLOCATIONS_TRACKING) :
    (Reachable dlFound (filled n)
        ∧ (filled n).isAllocationsArrayOverflow = false
        ∧ Event.print Line.important ∈ (printMemoryUsage (filled n)).trace)
      ∧ (Reachable dlFound (step dlFound (filled (n + 1)) (Call.free 1)).state
        ∧ (step dlFound (filled (n + 1)) (Call.free 1)).state.isAllocationsArrayOverflow = true
        ∧ Event.print Line.important
            ∉ (printMemoryUsage (step dlFound (filled (n + 1)) (Call.free 1)).state).trace) := by
  obtain ⟨_, hcnt, hov, _⟩ := filled_below n (le_of_eq hn)
  obtain ⟨hcnt2, hov2⟩ := overflowed_then_freed n hn
  have hpos : 0 < n := by rw [hn]; decide
  refine ⟨⟨reachable_filled _, hov, ?_⟩, ⟨?_, hov2, ?_⟩⟩
  · rw [printMemoryUsage_important, hcnt, hn]
  · exact Reachable.step _ (Call.free 1) (reachable_filled _)
  · rw [printMemoryUsage_important, hcnt2, ← hn]
    omega

/-! ## The resolver, once resolved -/

/-- With all four pointers already set, `init_real_functions` performs no lookup, writes
nothing, changes nothing and returns `0`. -/
theorem init_resolved_noop (dl : Dlsym) (s : State) (hm : s.real_malloc ≠ 0)
    (hf : s.real_free ≠ 0) (hc : s.real_calloc ≠ 0) (hr : s.real_realloc ≠ 0) :
    init_real_functions dl s = (0, s, []) := by
  simp [init_real_functions, resolveOne, hm, hf, hc, hr]

/-! ## The line of a successful `calloc` -/

/-- A logged, successful `calloc(num, size)` writes `num * size` as the byte count and `size`
in the place of the element count. -/
theorem calloc_line (dl : Dlsym) (s : State) (num size p : Nat) (hdl : dl.calloc ≠ 0)
    (hlog : s.isMemLog = true) (hp : p ≠ 0) :
    Event.print (Line.callocAllocated ((num * size) % sizeMod) size p)
      ∈ (calloc dl s num size p).trace := by
  have h0 := init_real_calloc_ne dl s hdl
  simp [calloc, h0, hlog, hp]

theorem swapRemoved_swapRemove (s : State) (i : Nat) (hi : i < s.allocationCount) :
    SwapRemoved s (swapRemove s i) i := by
  refine ⟨rfl, rfl, rfl, ?_, ?_, liveRecords_swapRemove s i hi, rfl⟩
  · simp [swapRemove, setAt]
  · intro m hm
    simp [swapRemove, setAt, hm]

/-! ## Live addresses and the heap of the real allocator -/

theorem liveAddresses_eq (s : State) :
    liveAddresses s
      = (Multiset.range s.allocationCount).map fun i => (s.allocations i).pointer := by
  simp [liveAddresses, liveRecords, Multiset.map_map, Function.comp_def]

theorem mem_liveAddresses (s : State) (x : Nat) :
    x ∈ liveAddresses s ↔ ∃ i, i < s.allocationCount ∧ (s.allocations i).pointer = x := by
  simp [liveAddresses_eq]

theorem holdsAddress_iff (s : State) (ptr : Nat) :
    holdsAddress s ptr = true ↔ ptr ∈ liveAddresses s := by
  simp [holdsAddress, mem_liveAddresses]

theorem liveDistinct_of_nodup (s : State) (h : (liveAddresses s).Nodup) : LiveDistinct s := by
  rw [liveAddresses_eq] at h
  intro i j hi hj he
  exact (Multiset.nodup_map_iff_inj_on (Multiset.nodup_range _)).mp h i
    (Multiset.mem_range.mpr hi) j (Multiset.mem_range.mpr hj) he

theorem liveAddresses_record (s : State) (p size : Nat) :
    liveAddresses (record s p size).1
      = if s.allocationCount < MAX_ALLOCATIONS_TRACKING then p ::ₘ liveAddresses s
        else liveAddresses s := by
  by_cases hc : s.allocationCount < MAX_ALLOCATIONS_TRACKING
  · rw [record_below s p size hc]
    simp only [hc, if_true, liveAddresses, liveRecords]
    rw [liveRecords_setAt_succ, Multiset.map_cons]
  · rw [record_full s p size hc]
    simp only [hc, if_false]
    rfl

theorem liveAddresses_swapRemove (s : State) (j : Nat) (hj : j < s.allocationCount) :
    (s.allocations j).pointer ::ₘ liveAddresses (swapRemove s j) = liveAddresses s := by
  unfold liveAddresses
  rw [← liveRecords_swapRemove s j hj, Multiset.map_cons]

theorem goodRegistry_heapAdd (h : Nat → Bool) (s : State) (p : Nat) (hg : GoodRegistry h s) :
    GoodRegistry (heapAdd h p) s := by
  refine ⟨fun x hx => ⟨(hg.1 x hx).1, ?_⟩, hg.2⟩
  unfold heapAdd
  by_cases hxp : x = p
  · simp [hxp]
  · simp [hxp, (hg.1 x hx).2]

theorem goodRegistry_heapRemove (h : Nat → Bool) (s : State) (ptr : Nat)
    (hg : GoodRegistry h s) (hn : ptr ∉ liveAddresses s) :
    GoodRegistry (heapRemove h ptr) s := by
  refine ⟨fun x hx => ⟨(hg.1 x hx).1, ?_⟩, hg.2⟩
  have hxp : x ≠ ptr := fun e => hn (e ▸ hx)
  simp [heapRemove, hxp, (hg.1 x hx).2]

/-- Inserting a fresh non-null address keeps the registry good. -/
theorem goodRegistry_record (h : Nat → Bool) (s : State) (p size : Nat)
    (hg : GoodRegistry h s) (hp : p ≠ 0) (hfresh : h p = false) :
    GoodRegistry (heapAdd h p) (record s p size).1 := by
  have hnot : p ∉ liveAddresses s := by
    intro hm
    have := (hg.1 p hm).2
    rw [hfresh] at this
    exact Bool.noConfusion this
  have hadd := goodRegistry_heapAdd h s p hg
  unfold GoodRegistry
  rw [liveAddresses_record]
  by_cases hc : s.allocationCount < MAX_ALLOCATIONS_TRACKING
  · simp only [hc, if_true, Multiset.mem_cons, Multiset.nodup_cons]
    refine ⟨fun x hx => ?_, hnot, hg.2⟩
    rcases hx with hx | hx
    · rw [hx]; exact ⟨hp, by simp [heapAdd]⟩
    · exact hadd.1 x hx
  · simp only [hc, if_false]
    exact hadd

/-- The scan loop for `ptr` keeps the registry good for the heap without `ptr`. -/
theorem goodRegistry_removeLoop (h : Nat → Bool) (s : State) (ptr : Nat) (verbose : Bool)
    (hg : GoodRegistry h s) :
    GoodRegistry (heapRemove h ptr) (removeLoop ptr verbose s.allocationCount 0 s).2.1 := by
  rcases removeLoop_spec ptr verbose s.allocationCount 0 s with
    ⟨_, h2, h3⟩ | ⟨j, _, hj, hp, _, _, h6⟩
  · rw [h2]
    apply goodRegistry_heapRemove h s ptr hg
    intro hm
    obtain ⟨i, hi, hpi⟩ := (mem_liveAddresses s ptr).mp hm
    exact h3 i (Nat.zero_le _) (by omega) hpi
  · rw [h6]
    have hcons := liveAddresses_swapRemove s j (by omega)
    rw [hp] at hcons
    have hnd : (ptr ::ₘ liveAddresses (swapRemove s j)).Nodup := by rw [hcons]; exact hg.2
    obtain ⟨hnot, hnd2⟩ := Multiset.nodup_cons.mp hnd
    refine ⟨fun x hx => ?_, hnd2⟩
    have hx2 : x ∈ liveAddresses s := by
      rw [← hcons]; exact Multiset.mem_cons_of_mem hx
    have hxp : x ≠ ptr := fun e => hnot (e ▸ hx)
    exact ⟨(hg.1 x hx2).1, by simp [heapRemove, hxp, (hg.1 x hx2).2]⟩

/-- A `realloc` that returned: logging was off, or the answer was `NULL`, or the bookkeeping
branches ran. -/
theorem realloc_state_of_returned (dl : Dlsym) (s : State) (ptr newSize p : Nat)
    (ha : (realloc dl s ptr newSize p).aborted = false) :
    (s.isMemLog = false
        ∧ (realloc dl s ptr newSize p).state = (init_real_functions dl s).2.1)
      ∨ (s.isMemLog = true ∧ p = 0
        ∧ (realloc dl s ptr newSize p).state = (init_real_functions dl s).2.1)
      ∨ (s.isMemLog = true ∧ p ≠ 0
        ∧ (realloc dl s ptr newSize p).state
            = (reallocTrack (init_real_functions dl s).2.1 ptr newSize p).1) := by
  have h0 : (init_real_functions dl s).2.1.real_realloc ≠ 0 := by
    intro h0; simp [realloc, h0] at ha
  by_cases hlog : s.isMemLog = true
  · by_cases hp : p = 0
    · exact Or.inr (Or.inl ⟨hlog, hp, by simp [realloc, h0, hlog, hp]⟩)
    · exact Or.inr (Or.inr ⟨hlog, hp, by simp [realloc, h0, hlog, hp]⟩)
  · have hl : s.isMemLog = false := by simpa using hlog
    exact Or.inl ⟨hl, by simp [realloc, h0, hl]⟩

theorem goodRegistry_reallocTrack (h : Nat → Bool) (s : State) (ptr newSize p : Nat)
    (hg : GoodRegistry h s) (hp : p ≠ 0) (hf : freshAnswer h (Call.realloc ptr newSize p) = true) :
    GoodRegistry (heapAdd (heapRemove h ptr) p) (reallocTrack s ptr newSize p).1 := by
  have hfresh : (heapRemove h ptr) p = false := by
    simp only [freshAnswer, hp, decide_False, Bool.false_or, Bool.or_eq_true,
      decide_eq_true_eq, Bool.not_eq_true'] at hf
    unfold heapRemove
    rcases hf with hf | hf
    · simp [hf]
    · by_cases hpp : p = ptr
      · simp [hpp]
      · simp [hpp, hf]
  unfold reallocTrack
  by_cases h1 : ptr = 0
  · simp only [h1, if_true]
    have hn0 : (0 : Nat) ∉ liveAddresses s := fun hm => (hg.1 0 hm).1 rfl
    have hg1 := goodRegistry_heapRemove h s 0 hg hn0
    rw [h1] at hfresh
    exact goodRegistry_record (heapRemove h 0) s p newSize hg1 hp hfresh
  · have hl := goodRegistry_removeLoop h s ptr false hg
    by_cases h2 : newSize = 0
    · simp only [h1, h2, if_true, if_false]
      exact goodRegistry_heapAdd _ _ p hl
    · simp only [h1, h2, if_false]
      exact goodRegistry_record (heapRemove h ptr) _ p newSize hl hp hfresh

/-- One returned call with a fresh answer and a release the registry sees keeps the registry
good for the heap after the call. -/
theorem step_goodRegistry (dl : Dlsym) (h : Nat → Bool) (s : State) (c : Call)
    (hg : GoodRegistry h s) (hf : freshAnswer h c = true) (hs : seesRelease s c = true)
    (ha : (step dl s c).aborted = false) :
    GoodRegistry (heapStep h c) (step dl s c).state := by
  have hg0 : GoodRegistry h (init_real_functions dl s).2.1 := hg
  cases c with
  | malloc size p =>
    show GoodRegistry (if p = 0 then h else heapAdd h p) (malloc dl s size p).state
    rcases malloc_state_cases dl s size p with e | ⟨_, hp, e⟩
    · rw [e]
      by_cases hp : p = 0
      · simp only [hp, if_true]; exact hg0
      · simp only [hp, if_false]; exact goodRegistry_heapAdd h _ p hg0
    · rw [e]
      simp only [hp, if_false]
      have hfr : h p = false := by simpa [freshAnswer, hp] using hf
      exact goodRegistry_record h _ p size hg0 hp hfr
  | calloc num size p =>
    show GoodRegistry (if p = 0 then h else heapAdd h p) (calloc dl s num size p).state
    rcases calloc_state_cases dl s num size p with e | ⟨_, hp, e⟩
    · rw [e]
      by_cases hp : p = 0
      · simp only [hp, if_true]; exact hg0
      · simp only [hp, if_false]; exact goodRegistry_heapAdd h _ p hg0
    · rw [e]
      simp only [hp, if_false]
      have hfr : h p = false := by simpa [freshAnswer, hp] using hf
      exact goodRegistry_record h _ p _ hg0 hp hfr
  | realloc ptr newSize p =>
    show GoodRegistry
      (if p ≠ 0 then heapAdd (heapRemove h ptr) p
        else if newSize = 0 then heapRemove h ptr else h)
      (realloc dl s ptr newSize p).state
    have hrel : holdsAddress s ptr = true →
        s.isMemLog = true ∧ (newSize ≠ 0 ∨ p ≠ 0) := by
      intro hh
      simpa [seesRelease, hh] using hs
    rcases realloc_state_of_returned dl s ptr newSize p ha with
      ⟨hl, e⟩ | ⟨hl, hp, e⟩ | ⟨_, hp, e⟩
    · have hnot : ptr ∉ liveAddresses s := by
        intro hm
        have := (hrel ((holdsAddress_iff s ptr).mpr hm)).1
        rw [hl] at this
        exact Bool.noConfusion this
      have hrem := goodRegistry_heapRemove h _ ptr hg0 hnot
      rw [e]
      by_cases hp : p = 0
      · by_cases hn : newSize = 0
        · simp only [hp, hn, ne_eq, not_true_eq_false, if_false, if_true]; exact hrem
        · simp only [hp, hn, ne_eq, not_true_eq_false, if_false]; exact hg0
      · simp only [hp, ne_eq, not_false_eq_true, if_true]
        exact goodRegistry_heapAdd _ _ p hrem
    · rw [e]
      by_cases hn : newSize = 0
      · have hnot : ptr ∉ liveAddresses s := by
          intro hm
          rcases (hrel ((holdsAddress_iff s ptr).mpr hm)).2 with h1 | h1
          · exact h1 hn
          · exact h1 hp
        simp only [hp, hn, ne_eq, not_true_eq_false, if_false, if_true]
        exact goodRegistry_heapRemove h _ ptr hg0 hnot
      · simp only [hp, hn, ne_eq, not_true_eq_false, if_false]; exact hg0
    · rw [e]
      simp only [hp, ne_eq, not_false_eq_true, if_true]
      exact goodRegistry_reallocTrack h _ ptr newSize p hg0 hp hf
  | free ptr =>
    show GoodRegistry (heapRemove h ptr) (free dl s ptr).state
    rcases free_state_cases dl s ptr with ⟨hl, e⟩ | ⟨_, e⟩
    · rw [e]
      apply goodRegistry_heapRemove h _ ptr hg0
      intro hm
      have hh := (holdsAddress_iff s ptr).mpr hm
      have : s.isMemLog = true := by simpa [seesRelease, hh] using hs
      rw [hl] at this
      exact Bool.noConfusion this
    · rw [e]
      exact goodRegistry_removeLoop h (init_real_functions dl s).2.1 ptr true hg0
  | enableMemoryLogging enable => exact hg
  | printMemoryUsage => exact hg
  | profilerReset =>
    refine ⟨fun x hx => ?_, ?_⟩
    · exact absurd hx (Multiset.not_mem_zero x)
    · exact Multiset.nodup_zero

/-- A returned run with fresh answers and releases the registry sees keeps the registry
good. -/
theorem runCalls_goodRegistry (dl : Dlsym) :
    ∀ (cs : List Call) (h : Nat → Bool) (s t : State), GoodRegistry h s →
      freshRun h cs = true → releasesSeen dl s cs = true → runCalls dl s cs = some t →
      ∃ h2, GoodRegistry h2 t
  | [], h, s, t, hg, _, _, hrun => by
    have : s = t := by simpa [runCalls] using hrun
    exact ⟨h, this ▸ hg⟩
  | c :: cs, h, s, t, hg, hf, hs, hrun => by
    simp only [freshRun, Bool.and_eq_true] at hf
    simp only [releasesSeen, Bool.and_eq_true] at hs
    by_cases ha : (step dl s c).aborted = true
    · simp [runCalls, ha] at hrun
    · have ha2 : (step dl s c).aborted = false := by simpa using ha
      simp only [runCalls, ha2] at hrun
      exact runCalls_goodRegistry dl cs (heapStep h c) (step dl s c).state t
        (step_goodRegistry dl h s c hg hf.1 hs.1 ha2) hf.2 hs.2 (by simpa using hrun)

/-! ## Accounting -/

theorem liveBytes_record (s : State) (p size : Nat) :
    liveBytes (record s p size).1
      = if s.allocationCount < MAX_ALLOCATIONS_TRACKING then size + liveBytes s
        else liveBytes s := by
  by_cases hc : s.allocationCount < MAX_ALLOCATIONS_TRACKING
  · rw [record_below s p size hc]
    simp only [hc, if_true, liveBytes, liveRecords]
    rw [liveRecords_setAt_succ, Multiset.map_cons, Multiset.sum_cons]
  · rw [record_full s p size hc]
    simp only [hc, if_false]
    rfl

theorem liveBytes_swapRemove (s : State) (j : Nat) (hj : j < s.allocationCount) :
    (s.allocations j).size + liveBytes (swapRemove s j) = liveBytes s := by
  unfold liveBytes
  rw [← liveRecords_swapRemove s j hj, Multiset.map_cons, Multiset.sum_cons]

theorem record_overflow_false (s : State) (p size : Nat)
    (h : (record s p size).1.isAllocationsArrayOverflow = false) :
    s.allocationCount < MAX_ALLOCATIONS_TRACKING ∧ s.isAllocationsArrayOverflow = false := by
  by_cases hc : s.allocationCount < MAX_ALLOCATIONS_TRACKING
  · rw [record_below s p size hc] at h
    exact ⟨hc, h⟩
  · rw [record_full s p size hc] at h
    exact Bool.noConfusion h

theorem record_counters (s : State) (p size : Nat) :
    (record s p size).1.totalAllocated = s.totalAllocated
      ∧ (record s p size).1.totalFreed = s.totalFreed := by
  by_cases hc : s.allocationCount < MAX_ALLOCATIONS_TRACKING
  · rw [record_below s p size hc]; exact ⟨rfl, rfl⟩
  · rw [record_full s p size hc]; exact ⟨rfl, rfl⟩

/-- The insertion block followed by `totalAllocated += size` keeps the relation modulo
`2 ^ 64`. -/
theorem acctMod_insert (s : State) (p size : Nat) (h : AcctMod s) :
    AcctMod { (record s p size).1 with
      totalAllocated := ((record s p size).1.totalAllocated + size) % sizeMod } := by
  obtain ⟨hta, htf⟩ := record_counters s p size
  refine ⟨?_, fun hov => ?_⟩
  · show (record s p size).1.totalFreed < sizeMod
    rw [htf]; exact h.1
  · obtain ⟨hc, hov0⟩ := record_overflow_false s p size hov
    have hl : liveBytes (record s p size).1 = size + liveBytes s := by
      rw [liveBytes_record]; simp only [hc, if_true]
    show ((record s p size).1.totalFreed + liveBytes (record s p size).1) % sizeMod
      = (((record s p size).1.totalAllocated + size) % sizeMod) % sizeMod
    rw [htf, hta, hl, Nat.mod_mod, ← Nat.add_assoc, Nat.add_right_comm,
      Nat.add_mod (s.totalFreed + liveBytes s) size, h.2 hov0, ← Nat.add_mod]

/-- The same block keeps the exact relation when the addition does not wrap. -/
theorem acctExact_insert (s : State) (p size : Nat) (h : AcctExact s)
    (hw : s.totalAllocated + size < sizeMod) :
    AcctExact { (record s p size).1 with
      totalAllocated := ((record s p size).1.totalAllocated + size) % sizeMod } := by
  obtain ⟨hta, htf⟩ := record_counters s p size
  obtain ⟨h1, h2, _⟩ := h
  have hmod : ((record s p size).1.totalAllocated + size) % sizeMod
      = s.totalAllocated + size := by
    rw [hta]; exact Nat.mod_eq_of_lt hw
  have hle : liveBytes (record s p size).1 ≤ size + liveBytes s := by
    rw [liveBytes_record]
    by_cases hc : s.allocationCount < MAX_ALLOCATIONS_TRACKING
    · simp only [hc, if_true]; exact le_refl _
    · simp only [hc, if_false]; exact Nat.le_add_left _ _
  refine ⟨?_, fun hov => ?_, ?_⟩
  · show (record s p size).1.totalFreed + liveBytes (record s p size).1
      ≤ ((record s p size).1.totalAllocated + size) % sizeMod
    rw [hmod, htf]; omega
  · obtain ⟨hc, hov0⟩ := record_overflow_false s p size hov
    have hl : liveBytes (record s p size).1 = size + liveBytes s := by
      rw [liveBytes_record]; simp only [hc, if_true]
    show (record s p size).1.totalFreed + liveBytes (record s p size).1
      = ((record s p size).1.totalAllocated + size) % sizeMod
    rw [hmod, htf, hl]
    have := h2 hov0
    omega
  · show ((record s p size).1.totalAllocated + size) % sizeMod < sizeMod
    rw [hmod]; exact hw

theorem acctMod_removeLoop (ptr : Nat) (verbose : Bool) (s : State) (h : AcctMod s) :
    AcctMod (removeLoop ptr verbose s.allocationCount 0 s).2.1 := by
  rcases removeLoop_state_cases ptr verbose s with e | ⟨j, hj, _, e⟩
  · rw [e]; exact h
  · rw [e]
    have hl := liveBytes_swapRemove s j hj
    refine ⟨Nat.mod_lt _ sizeMod_pos, fun hov => ?_⟩
    have h2 := h.2 hov
    show ((s.totalFreed + (s.allocations j).size) % sizeMod + liveBytes (swapRemove s j))
      % sizeMod = s.totalAllocated % sizeMod
    rw [Nat.mod_add_mod, Nat.add_assoc, hl]
    exact h2

theorem acctExact_removeLoop (ptr : Nat) (verbose : Bool) (s : State) (h : AcctExact s) :
    AcctExact (removeLoop ptr verbose s.allocationCount 0 s).2.1
      ∧ (removeLoop ptr verbose s.allocationCount 0 s).2.1.totalAllocated
          = s.totalAllocated := by
  rcases removeLoop_state_cases ptr verbose s with e | ⟨j, hj, _, e⟩
  · rw [e]; exact ⟨h, rfl⟩
  · rw [e]
    have hl := liveBytes_swapRemove s j hj
    obtain ⟨h1, h2, h3⟩ := h
    have hlt : s.totalFreed + (s.allocations j).size < sizeMod := by omega
    have hmod : (swapRemove s j).totalFreed = s.totalFreed + (s.allocations j).size :=
      Nat.mod_eq_of_lt hlt
    refine ⟨⟨?_, fun hov => ?_, h3⟩, rfl⟩
    · show (swapRemove s j).totalFreed + liveBytes (swapRemove s j) ≤ s.totalAllocated
      rw [hmod]; omega
    · show (swapRemove s j).totalFreed + liveBytes (swapRemove s j) = s.totalAllocated
      have := h2 hov
      rw [hmod]; omega

theorem acctMod_reallocTrack (s : State) (ptr newSize p : Nat) (h : AcctMod s) :
    AcctMod (reallocTrack s ptr newSize p).1 := by
  unfold reallocTrack
  have hl := acctMod_removeLoop ptr false s h
  by_cases h1 : ptr = 0
  · simp only [h1, if_true]; exact acctMod_insert s p newSize h
  · by_cases h2 : newSize = 0
    · simp only [h1, h2, if_true, if_false]; exact hl
    · simp only [h1, h2, if_false]
      exact acctMod_insert _ p newSize hl

theorem acctExact_reallocTrack (s : State) (ptr newSize p : Nat) (h : AcctExact s)
    (hw : s.totalAllocated + newSize < sizeMod) :
    AcctExact (reallocTrack s ptr newSize p).1 := by
  unfold reallocTrack
  obtain ⟨hl, hta⟩ := acctExact_removeLoop ptr false s h
  by_cases h1 : ptr = 0
  · simp only [h1, if_true]; exact acctExact_insert s p newSize h hw
  · by_cases h2 : newSize = 0
    · simp only [h1, h2, if_true, if_false]; exact hl
    · simp only [h1, h2, if_false]
      exact acctExact_insert _ p newSize hl (by rw [hta]; exact hw)

theorem liveBytes_reset (s : State) : liveBytes (profilerReset s).state = 0 := by
  simp [liveBytes, liveRecords, profilerReset]

/-- Every call keeps the accounting relation modulo `2 ^ 64`. -/
theorem step_acctMod (dl : Dlsym) (s : State) (c : Call) (h : AcctMod s) :
    AcctMod (step dl s c).state := by
  have h0 : AcctMod (init_real_functions dl s).2.1 := h
  cases c with
  | malloc size p =>
    show AcctMod (malloc dl s size p).state
    rcases malloc_state_cases dl s size p with e | ⟨_, _, e⟩
    · rw [e]; exact h0
    · rw [e]; exact acctMod_insert _ p size h0
  | calloc num size p =>
    show AcctMod (calloc dl s num size p).state
    rcases calloc_state_cases dl s num size p with e | ⟨_, _, e⟩
    · rw [e]; exact h0
    · rw [e]; exact acctMod_insert _ p _ h0
  | realloc ptr newSize p =>
    show AcctMod (realloc dl s ptr newSize p).state
    rcases realloc_state_cases dl s ptr newSize p with e | ⟨_, _, e⟩
    · rw [e]; exact h0
    · rw [e]; exact acctMod_reallocTrack _ ptr newSize p h0
  | free ptr =>
    show AcctMod (free dl s ptr).state
    rcases free_state_cases dl s ptr with ⟨_, e⟩ | ⟨_, e⟩
    · rw [e]; exact h0
    · rw [e]; exact acctMod_removeLoop ptr true (init_real_functions dl s).2.1 h0
  | enableMemoryLogging enable => exact h
  | printMemoryUsage => exact h
  | profilerReset =>
    show AcctMod (profilerReset s).state
    refine ⟨sizeMod_pos, fun _ => ?_⟩
    rw [liveBytes_reset]
    rfl

/-- Every call keeps the exact accounting relation, provided that, when it is made with
logging enabled, the bytes it counts fit on top of `totalAllocated`. -/
theorem step_acctExact (dl : Dlsym) (s : State) (c : Call) (h : AcctExact s)
    (hw : s.isMemLog = true → s.totalAllocated + countedBytes c < sizeMod) :
    AcctExact (step dl s c).state := by
  have h0 : AcctExact (init_real_functions dl s).2.1 := h
  cases c with
  | malloc size p =>
    show AcctExact (malloc dl s size p).state
    rcases malloc_state_cases dl s size p with e | ⟨hlog, hp, e⟩
    · rw [e]; exact h0
    · rw [e]
      have := hw hlog
      simp only [countedBytes, hp, if_false] at this
      exact acctExact_insert _ p size h0 this
  | calloc num size p =>
    show AcctExact (calloc dl s num size p).state
    rcases calloc_state_cases dl s num size p with e | ⟨hlog, hp, e⟩
    · rw [e]; exact h0
    · rw [e]
      have := hw hlog
      simp only [countedBytes, hp, if_false] at this
      exact acctExact_insert _ p _ h0 this
  | realloc ptr newSize p =>
    show AcctExact (realloc dl s ptr newSize p).state
    rcases realloc_state_cases dl s ptr newSize p with e | ⟨hlog, hp, e⟩
    · rw [e]; exact h0
    · rw [e]
      have := hw hlog
      simp only [countedBytes, hp, if_false] at this
      exact acctExact_reallocTrack _ ptr newSize p h0 this
  | free ptr =>
    show AcctExact (free dl s ptr).state
    rcases free_state_cases dl s ptr with ⟨_, e⟩ | ⟨_, e⟩
    · rw [e]; exact h0
    · rw [e]; exact (acctExact_removeLoop ptr true (init_real_functions dl s).2.1 h0).1
  | enableMemoryLogging enable => exact h
  | printMemoryUsage => exact h
  | profilerReset =>
    show AcctExact (profilerReset s).state
    refine ⟨?_, fun _ => ?_, sizeMod_pos⟩
    · rw [liveBytes_reset]; exact le_refl _
    · rw [liveBytes_reset]; rfl

theorem runAll_acctMod (dl : Dlsym) :
    ∀ (cs : List Call) (s : State), AcctMod s → AcctMod (runAll dl s cs)
  | [], _, h => h
  | c :: cs, s, h => runAll_acctMod dl cs (step dl s c).state (step_acctMod dl s c h)

theorem runAll_acctExact (dl : Dlsym) :
    ∀ (cs : List Call) (s : State), AcctExact s → neverWraps dl s cs = true →
      AcctExact (runAll dl s cs)
  | [], _, h, _ => h
  | c :: cs, s, h, hw => by
    simp only [neverWraps, Bool.and_eq_true, Bool.or_eq_true, Bool.not_eq_true',
      decide_eq_true_eq] at hw
    refine runAll_acctExact dl cs (step dl s c).state (step_acctExact dl s c h ?_) hw.2
    intro hlog
    rcases hw.1 with h1 | h1
    · rw [hlog] at h1; exact Bool.noConfusion h1
    · exact h1

theorem acct_initial : AcctMod initial ∧ AcctExact initial := by
  have hl : liveBytes initial = 0 := by simp [liveBytes, liveRecords, initial]
  refine ⟨⟨sizeMod_pos, fun _ => ?_⟩, ?_, fun _ => ?_, sizeMod_pos⟩
  · rw [hl]; rfl
  · rw [hl]; exact le_refl _
  · rw [hl]; rfl

/-- Under the relation modulo `2 ^ 64`, the reported difference is the live bytes modulo
`2 ^ 64`. -/
theorem subWrap_of_acctMod (s : State) (h : AcctMod s)
    (hov : s.isAllocationsArrayOverflow = false) :
    subWrap s.totalAllocated s.totalFreed = liveBytes s % sizeMod := by
  obtain ⟨htf, h2⟩ := h
  have e := h2 hov
  unfold subWrap
  rw [Nat.mod_eq_of_lt htf]
  have e1 : (s.totalAllocated + sizeMod - s.totalFreed + s.totalFreed) % sizeMod
      = (liveBytes s + s.totalFreed) % sizeMod := by
    rw [Nat.sub_add_cancel (by omega), Nat.add_mod_right, Nat.add_comm (liveBytes s)]
    exact e.symm
  exact Nat.ModEq.add_right_cancel' s.totalFreed e1

/-- Under the exact relation, the reported difference does not underflow. -/
theorem subWrap_of_acctExact (s : State) (h : AcctExact s) :
    s.totalFreed ≤ s.totalAllocated
      ∧ subWrap s.totalAllocated s.totalFreed = s.totalAllocated - s.totalFreed := by
  obtain ⟨h1, _, h3⟩ := h
  have hle : s.totalFreed ≤ s.totalAllocated := by omega
  refine ⟨hle, ?_⟩
  unfold subWrap
  rw [Nat.mod_eq_of_lt (by omega : s.totalFreed < sizeMod)]
  have : s.totalAllocated + sizeMod - s.totalFreed
      = (s.totalAllocated - s.totalFreed) + sizeMod := by omega
  rw [this, Nat.add_mod_right]
  exact Nat.mod_eq_of_lt (by omega)

/-! ## Claims -/

/-- C1: from the reset state with logging then enabled, a sequence of at most
`MAX_ALLOCATIONS_TRACKING` calls of `malloc`, each answered by a non-null pointer, runs to
completion, and afterwards `totalAllocated` is the sum of the requested sizes modulo `2 ^ 64`
and the overflow flag is still false. -/
theorem malloc_sequence_totalAllocated (dl : Dlsym) (s : State) (calls : List (Nat × Nat))
    (hdl : dl.malloc ≠ 0)
    (hN : calls.length ≤ MAX_ALLOCATIONS_TRACKING)
    (hp : ∀ c ∈ calls, c.2 ≠ 0) :
    ∃ s1, runCalls dl (resetEnabled s) (mallocCalls calls) = some s1
      ∧ s1.totalAllocated = (calls.map Prod.fst).sum % sizeMod
      ∧ s1.isAllocationsArrayOverflow = false := by
  obtain ⟨s1, hrun, _, hta, hlt, _, hov, _, _⟩ :=
    runCalls_mallocs dl hdl calls (resetEnabled s) rfl
      (by show 0 + calls.length ≤ MAX_ALLOCATIONS_TRACKING; omega) hp
  refine ⟨s1, hrun, ?_, ?_⟩
  · have h0 : (resetEnabled s).totalAllocated = 0 := rfl
    rw [h0, Nat.zero_add] at hta
    rw [← hta]
    exact (Nat.mod_eq_of_lt (hlt (by rw [h0]; exact sizeMod_pos))).symm
  · rw [hov]; rfl

/-- Witness for C1: three `malloc` calls on a platform whose lookups succeed. -/
theorem malloc_sequence_totalAllocated_witness :
    ∃ s1, runCalls ⟨11, 12, 13, 14⟩ (resetEnabled initial)
        (mallocCalls [(40, 100), (8, 200), (16, 300)]) = some s1
      ∧ s1.totalAllocated = ([(40, 100), (8, 200), (16, 300)].map Prod.fst).sum % sizeMod
      ∧ s1.isAllocationsArrayOverflow = false :=
  malloc_sequence_totalAllocated ⟨11, 12, 13, 14⟩ initial [(40, 100), (8, 200), (16, 300)]
    (by decide) (by decide) (by decide)

theorem subWrap_self (a : Nat) (h : a < sizeMod) : subWrap a a = 0 := by
  unfold subWrap
  rw [Nat.mod_eq_of_lt h, Nat.add_comm, Nat.add_sub_cancel, Nat.mod_self]

/-- C2: from the reset state with logging then enabled, at most `MAX_ALLOCATIONS_TRACKING`
successful `malloc` calls followed by one `free` per returned address, in any order, run to
completion and leave `totalAllocated - totalFreed == 0` (the two counters are equal) and
`allocationCount == 0`. The frees are a permutation of the returned addresses; the statement
holds whether or not those addresses are pairwise distinct. -/
theorem malloc_then_free_all_balances (dl : Dlsym) (s : State) (calls : List (Nat × Nat))
    (frees : List Nat)
    (hdm : dl.malloc ≠ 0) (hdf : dl.free ≠ 0)
    (hN : calls.length ≤ MAX_ALLOCATIONS_TRACKING)
    (hp : ∀ c ∈ calls, c.2 ≠ 0)
    (hperm : frees.Perm (calls.map Prod.snd)) :
    ∃ s2, runCalls dl (resetEnabled s) (mallocCalls calls ++ frees.map Call.free) = some s2
      ∧ subWrap s2.totalAllocated s2.totalFreed = 0
      ∧ s2.totalAllocated = s2.totalFreed
      ∧ s2.allocationCount = 0 := by
  obtain ⟨s1, hrun1, hlog1, hta1, hlt1, htf1, _, _, hlive1⟩ :=
    runCalls_mallocs dl hdm calls (resetEnabled s) rfl
      (by show 0 + calls.length ≤ MAX_ALLOCATIONS_TRACKING; omega) hp
  have hta0 : (resetEnabled s).totalAllocated = 0 := rfl
  have htf0 : (resetEnabled s).totalFreed = 0 := rfl
  have hlive0 : liveRecords (resetEnabled s) = 0 := rfl
  rw [hlive0, zero_add] at hlive1
  have hptr : (liveRecords s1).map AllocationInfo.pointer = (↑frees : Multiset Nat) := by
    rw [hlive1, Multiset.map_coe, List.map_map, Multiset.coe_eq_coe]
    exact hperm.symm
  obtain ⟨s2, hrun2, hcnt, hta2, htf2, hlt2⟩ := runCalls_frees dl hdf frees s1 hlog1 hptr
  have hsum : ((liveRecords s1).map AllocationInfo.size).sum = (calls.map Prod.fst).sum := by
    rw [hlive1, Multiset.map_coe, List.map_map, Multiset.sum_coe]
    rfl
  have hA : s2.totalAllocated < sizeMod := by
    rw [hta2]; exact hlt1 (by rw [hta0]; exact sizeMod_pos)
  have hF : s2.totalFreed < sizeMod := hlt2 (by rw [htf1, htf0]; exact sizeMod_pos)
  have heq : s2.totalAllocated = s2.totalFreed := by
    have e1 : s2.totalAllocated % sizeMod = s2.totalFreed % sizeMod := by
      rw [hta2, hta1, htf2, hsum, htf1, hta0, htf0]
    rwa [Nat.mod_eq_of_lt hA, Nat.mod_eq_of_lt hF] at e1
  refine ⟨s2, ?_, ?_, heq, hcnt⟩
  · rw [runCalls_append, hrun1]; exact hrun2
  · rw [← heq]; exact subWrap_self _ hA

/-- Witness for C2: three allocations, freed in another order. -/
theorem malloc_then_free_all_balances_witness :
    ∃ s2, runCalls ⟨11, 12, 13, 14⟩ (resetEnabled initial)
        (mallocCalls [(40, 100), (8, 200), (16, 300)] ++ [200, 300, 100].map Call.free) = some s2
      ∧ subWrap s2.totalAllocated s2.totalFreed = 0
      ∧ s2.totalAllocated = s2.totalFreed
      ∧ s2.allocationCount = 0 :=
  malloc_then_free_all_balances ⟨11, 12, 13, 14⟩ initial [(40, 100), (8, 200), (16, 300)]
    [200, 300, 100] (by decide) (by decide) (by decide) (by decide) (by decide)

/-- C3: the scenario of `example.cpp`, lines 30-36. From the reset state:
`enableMemoryLogging(true); ptr1 = malloc(40); ptr2 = calloc(5, 20); ptr1 = realloc(ptr1, 80);
free(ptr1); free(ptr2);` with every real call answering a non-null pointer (`p1`, `p2`, `q`)
and the address `q` that `realloc` returns different from the live `p2`. The run completes
with `totalAllocated == 220`, `totalFreed == 220`, their difference `0`, and
`allocationCount == 0`. -/
theorem example_scenario_totals (dl : Dlsym) (s : State) (p1 p2 q : Nat)
    (hdm : dl.malloc ≠ 0) (hdf : dl.free ≠ 0) (hdc : dl.calloc ≠ 0) (hdr : dl.realloc ≠ 0)
    (h1 : p1 ≠ 0) (h2 : p2 ≠ 0) (hq : q ≠ 0) (hq2 : q ≠ p2) :
    ∃ t, runCalls dl (profilerReset s).state
        [Call.enableMemoryLogging true, Call.malloc 40 p1, Call.calloc 5 20 p2,
         Call.realloc p1 80 q, Call.free q, Call.free p2] = some t
      ∧ t.totalAllocated = 220 ∧ t.totalFreed = 220
      ∧ subWrap t.totalAllocated t.totalFreed = 0 ∧ t.allocationCount = 0 := by
  have hM : MAX_ALLOCATIONS_TRACKING = 1000 := rfl
  -- malloc(40)
  obtain ⟨a1, l1, ta1, tf1, n1, _, r1⟩ :=
    malloc_logged dl (resetEnabled s) 40 p1 hdm rfl h1 (by simp [hM])
  simp only [resetEnabled_totalAllocated, resetEnabled_totalFreed,
    resetEnabled_allocationCount] at ta1 tf1 n1 r1
  generalize hs1 : (malloc dl (resetEnabled s) 40 p1).state = s1 at a1 l1 ta1 tf1 n1 r1
  -- calloc(5, 20)
  obtain ⟨a2, l2, ta2, tf2, n2, _, r2⟩ :=
    calloc_logged dl s1 5 20 p2 hdc l1 h2 (by rw [n1, hM]; decide)
  rw [n1] at n2 r2
  rw [ta1] at ta2
  rw [tf1] at tf2
  have x0 : (calloc dl s1 5 20 p2).state.allocations 0 = ⟨p1, 40⟩ := by
    rw [r2, r1]; simp [setAt]
  have x1 : (calloc dl s1 5 20 p2).state.allocations 1 = ⟨p2, 100⟩ := by
    rw [r2]; simp [setAt, sizeMod]
  generalize hs2 : (calloc dl s1 5 20 p2).state = s2 at a2 l2 ta2 tf2 n2 x0 x1
  clear r2
  -- realloc(ptr1, 80)
  obtain ⟨a3, e3⟩ := realloc_logged dl s2 p1 80 q hdr l2 hq
  have n3 : (realloc dl s2 p1 80 q).state.allocationCount = 2 := by
    rw [e3]; simp [reallocTrack, h1, n2, removeLoop, x0, swapRemove, record, hM]
  have l3 : (realloc dl s2 p1 80 q).state.isMemLog = true := by
    rw [e3]; simp [reallocTrack, h1, n2, removeLoop, x0, swapRemove, record, hM, l2]
  have ta3 : (realloc dl s2 p1 80 q).state.totalAllocated = 220 := by
    rw [e3]; simp [reallocTrack, h1, n2, removeLoop, x0, swapRemove, record, hM, ta2, sizeMod]
  have tf3 : (realloc dl s2 p1 80 q).state.totalFreed = 40 := by
    rw [e3]; simp [reallocTrack, h1, n2, removeLoop, x0, swapRemove, record, hM, tf2, sizeMod]
  have y0 : (realloc dl s2 p1 80 q).state.allocations 0 = ⟨p2, 100⟩ := by
    rw [e3]; simp [reallocTrack, h1, n2, removeLoop, x0, x1, swapRemove, record, hM, setAt]
  have y1 : (realloc dl s2 p1 80 q).state.allocations 1 = ⟨q, 80⟩ := by
    rw [e3]; simp [reallocTrack, h1, n2, removeLoop, x0, x1, swapRemove, record, hM, setAt]
  generalize hs3 : (realloc dl s2 p1 80 q).state = s3 at a3 n3 l3 ta3 tf3 y0 y1
  clear e3
  -- free(ptr1)
  have a4 := free_aborted dl s3 q hdf
  have e4 := free_state_logged dl s3 q l3
  have hp2q : p2 ≠ q := fun e => hq2 e.symm
  have n4 : (free dl s3 q).state.allocationCount = 1 := by
    rw [e4]; simp [n3, removeLoop, y0, y1, hp2q, swapRemove]
  have l4 : (free dl s3 q).state.isMemLog = true := by
    rw [e4]; simp [n3, removeLoop, y0, y1, hp2q, swapRemove, l3]
  have ta4 : (free dl s3 q).state.totalAllocated = 220 := by
    rw [e4]; simp [n3, removeLoop, y0, y1, hp2q, swapRemove, ta3]
  have tf4 : (free dl s3 q).state.totalFreed = 120 := by
    rw [e4]; simp [n3, removeLoop, y0, y1, hp2q, swapRemove, tf3, sizeMod]
  have z0 : (free dl s3 q).state.allocations 0 = ⟨p2, 100⟩ := by
    rw [e4]; simp [n3, removeLoop, y0, y1, hp2q, swapRemove, setAt]
  generalize hs4 : (free dl s3 q).state = s4 at a4 n4 l4 ta4 tf4 z0
  clear e4
  -- free(ptr2)
  have a5 := free_aborted dl s4 p2 hdf
  have e5 := free_state_logged dl s4 p2 l4
  have n5 : (free dl s4 p2).state.allocationCount = 0 := by
    rw [e5]; simp [n4, removeLoop, z0, swapRemove]
  have ta5 : (free dl s4 p2).state.totalAllocated = 220 := by
    rw [e5]; simp [n4, removeLoop, z0, swapRemove, ta4]
  have tf5 : (free dl s4 p2).state.totalFreed = 220 := by
    rw [e5]; simp [n4, removeLoop, z0, swapRemove, tf4, sizeMod]
  refine ⟨(free dl s4 p2).state, ?_, ta5, tf5, ?_, n5⟩
  · rw [runCalls_cons_ok dl (profilerReset s).state (Call.enableMemoryLogging true) _
        (resetEnabled s) rfl rfl,
      runCalls_cons_ok dl (resetEnabled s) (Call.malloc 40 p1) _ s1 a1 hs1,
      runCalls_cons_ok dl s1 (Call.calloc 5 20 p2) _ s2 a2 hs2,
      runCalls_cons_ok dl s2 (Call.realloc p1 80 q) _ s3 a3 hs3,
      runCalls_cons_ok dl s3 (Call.free q) _ s4 a4 hs4,
      runCalls_cons_ok dl s4 (Call.free p2) _ (free dl s4 p2).state a5 rfl]
    rfl
  · rw [ta5, tf5]; simp [subWrap, sizeMod]

/-- Witness for C3: addresses `100`, `200`, and `300` for the resized block. -/
theorem example_scenario_totals_witness :
    ∃ t, runCalls ⟨11, 12, 13, 14⟩ (profilerReset initial).state
        [Call.enableMemoryLogging true, Call.malloc 40 100, Call.calloc 5 20 200,
         Call.realloc 100 80 300, Call.free 300, Call.free 200] = some t
      ∧ t.totalAllocated = 220 ∧ t.totalFreed = 220
      ∧ subWrap t.totalAllocated t.totalFreed = 0 ∧ t.allocationCount = 0 :=
  example_scenario_totals ⟨11, 12, 13, 14⟩ initial 100 200 300
    (by decide) (by decide) (by decide) (by decide) (by decide) (by decide) (by decide)
    (by decide)

/-- C4: in every state reachable from program start by calls of `malloc`, `calloc`,
`realloc`, `free`, `enableMemoryLogging`, `printMemoryUsage` and `profilerReset`, with any
answers of the real allocator, `allocationCount` is at most `MAX_ALLOCATIONS_TRACKING`, and
every subscript of `allocations` that the next call evaluates (scan, insert, swap-remove) is
below `MAX_ALLOCATIONS_TRACKING`. -/
theorem reachable_within_capacity (dl : Dlsym) (s : State) (h : Reachable dl s) :
    s.allocationCount ≤ MAX_ALLOCATIONS_TRACKING
      ∧ ∀ (c : Call) (e : Nat),
          Event.index e ∈ (step dl s c).trace → e < MAX_ALLOCATIONS_TRACKING :=
  ⟨reachable_count_le dl s h, fun c e he => step_index_lt dl s c e (reachable_count_le dl s h) he⟩

theorem reachable_oneLive : Reachable dlFound oneLive :=
  Reachable.step _ (Call.malloc 40 100)
    (Reachable.step initial (Call.enableMemoryLogging true) Reachable.init)

/-- Witness for C4: the state with one live record, and the subscript `0` that `free(100)`
evaluates there. -/
theorem reachable_within_capacity_witness :
    Reachable dlFound oneLive
      ∧ oneLive.allocationCount ≤ MAX_ALLOCATIONS_TRACKING
      ∧ Event.index 0 ∈ (step dlFound oneLive (Call.free 100)).trace
      ∧ 0 < MAX_ALLOCATIONS_TRACKING :=
  ⟨reachable_oneLive,
   (reachable_within_capacity dlFound oneLive reachable_oneLive).1,
   by decide,
   (reachable_within_capacity dlFound oneLive reachable_oneLive).2 (Call.free 100) 0 (by decide)⟩

/-- C5: the overflow flag is sticky. In every state where `isAllocationsArrayOverflow` is
true, every call other than `profilerReset` (`malloc`, `calloc`, `realloc`, `free`,
`enableMemoryLogging`, `printMemoryUsage`, with any arguments and any answer of the real
allocator) leaves it true. -/
theorem overflow_flag_sticky (dl : Dlsym) (s : State) (c : Call)
    (h : s.isAllocationsArrayOverflow = true) (hc : c ≠ Call.profilerReset) :
    (step dl s c).state.isAllocationsArrayOverflow = true := by
  have h0 : (init_real_functions dl s).2.1.isAllocationsArrayOverflow = true := h
  cases c with
  | malloc size p =>
    show (malloc dl s size p).state.isAllocationsArrayOverflow = true
    rcases malloc_state_cases dl s size p with e | ⟨_, _, e⟩
    · rw [e]; exact h
    · rw [e]; exact record_overflow_sticky _ p size h0
  | calloc num size p =>
    show (calloc dl s num size p).state.isAllocationsArrayOverflow = true
    rcases calloc_state_cases dl s num size p with e | ⟨_, _, e⟩
    · rw [e]; exact h
    · rw [e]; exact record_overflow_sticky _ p _ h0
  | realloc ptr newSize p =>
    show (realloc dl s ptr newSize p).state.isAllocationsArrayOverflow = true
    rcases realloc_state_cases dl s ptr newSize p with e | ⟨_, _, e⟩
    · rw [e]; exact h
    · rw [e]; exact reallocTrack_overflow_sticky _ ptr newSize p h0
  | free ptr =>
    show (free dl s ptr).state.isAllocationsArrayOverflow = true
    rcases free_state_cases dl s ptr with ⟨_, e⟩ | ⟨_, e⟩
    · rw [e]; exact h
    · rw [e]
      exact (removeLoop_overflow ptr true (init_real_functions dl s).2.1).trans h
  | enableMemoryLogging enable => exact h
  | printMemoryUsage => exact h
  | profilerReset => exact absurd rfl hc

/-- Witness for C5: a full registry that has already dropped a record, then a `free` of a
tracked address. -/
theorem overflow_flag_sticky_witness :
    fullOverflowed.isAllocationsArrayOverflow = true
      ∧ Call.free 5 ≠ Call.profilerReset
      ∧ (step dlFound fullOverflowed (Call.free 5)).state.isAllocationsArrayOverflow = true :=
  ⟨rfl, by decide, overflow_flag_sticky dlFound fullOverflowed (Call.free 5) rfl (by decide)⟩

/-- C6: `profilerReset()` from any state yields `totalAllocated == 0`, `totalFreed == 0`,
`allocationCount == 0`, overflow flag false, logging disabled, every slot of the
`allocations` array zeroed, and leaves the four resolved real-function pointers unchanged. -/
theorem profilerReset_clears (s : State) :
    (profilerReset s).state.totalAllocated = 0
      ∧ (profilerReset s).state.totalFreed = 0
      ∧ (profilerReset s).state.allocationCount = 0
      ∧ (profilerReset s).state.isAllocationsArrayOverflow = false
      ∧ (profilerReset s).state.isMemLog = false
      ∧ (∀ i, i < MAX_ALLOCATIONS_TRACKING → (profilerReset s).state.allocations i = ⟨0, 0⟩)
      ∧ (profilerReset s).state.real_malloc = s.real_malloc
      ∧ (profilerReset s).state.real_free = s.real_free
      ∧ (profilerReset s).state.real_calloc = s.real_calloc
      ∧ (profilerReset s).state.real_realloc = s.real_realloc := by
  refine ⟨rfl, rfl, rfl, rfl, rfl, ?_, rfl, rfl, rfl, rfl⟩
  intro i hi
  simp [profilerReset, hi]

/-- C7: while logging is disabled, `malloc`, `calloc`, `realloc` and `free` (any arguments,
any answer of the real allocator) leave `totalAllocated`, `totalFreed`, `allocationCount`,
the array and the overflow flag as they were, and logging stays disabled; and
`enableMemoryLogging(flag)`, in any state, with logging enabled or disabled, changes the
logging flag and nothing else. -/
theorem disabled_logging_freezes_registry (dl : Dlsym) (s : State) (a b c p : Nat)
    (flag : Bool) :
    (s.isMemLog = false →
        (SameRegistry s (malloc dl s a p).state ∧ (malloc dl s a p).state.isMemLog = false)
          ∧ (SameRegistry s (calloc dl s a b p).state
              ∧ (calloc dl s a b p).state.isMemLog = false)
          ∧ (SameRegistry s (realloc dl s c a p).state
              ∧ (realloc dl s c a p).state.isMemLog = false)
          ∧ (SameRegistry s (free dl s c).state ∧ (free dl s c).state.isMemLog = false))
      ∧ (enableMemoryLogging s flag).state = { s with isMemLog := flag } := by
  refine ⟨fun h => ?_, rfl⟩
  have hm : (malloc dl s a p).state = (init_real_functions dl s).2.1 := by
    rcases malloc_state_cases dl s a p with e | ⟨hl, _, _⟩
    · exact e
    · rw [h] at hl; exact absurd hl (by decide)
  have hc : (calloc dl s a b p).state = (init_real_functions dl s).2.1 := by
    rcases calloc_state_cases dl s a b p with e | ⟨hl, _, _⟩
    · exact e
    · rw [h] at hl; exact absurd hl (by decide)
  have hr : (realloc dl s c a p).state = (init_real_functions dl s).2.1 := by
    rcases realloc_state_cases dl s c a p with e | ⟨hl, _, _⟩
    · exact e
    · rw [h] at hl; exact absurd hl (by decide)
  have hf : (free dl s c).state = (init_real_functions dl s).2.1 := by
    rcases free_state_cases dl s c with ⟨_, e⟩ | ⟨hl, _⟩
    · exact e
    · rw [h] at hl; exact absurd hl (by decide)
  rw [hm, hc, hr, hf]
  exact ⟨⟨⟨rfl, rfl, rfl, rfl, rfl⟩, h⟩, ⟨⟨rfl, rfl, rfl, rfl, rfl⟩, h⟩,
    ⟨⟨rfl, rfl, rfl, rfl, rfl⟩, h⟩, ⟨⟨rfl, rfl, rfl, rfl, rfl⟩, h⟩⟩

/-- Witness for C7: the four interceptors in the state with one live record after
`enableMemoryLogging(false)`, and the toggle both there and in the state with logging
enabled. -/
theorem disabled_logging_freezes_registry_witness :
    oneLiveDisabled.isMemLog = false
      ∧ ((SameRegistry oneLiveDisabled (malloc dlFound oneLiveDisabled 40 500).state
            ∧ (malloc dlFound oneLiveDisabled 40 500).state.isMemLog = false)
          ∧ (SameRegistry oneLiveDisabled (calloc dlFound oneLiveDisabled 40 2 500).state
            ∧ (calloc dlFound oneLiveDisabled 40 2 500).state.isMemLog = false)
          ∧ (SameRegistry oneLiveDisabled (realloc dlFound oneLiveDisabled 100 40 500).state
            ∧ (realloc dlFound oneLiveDisabled 100 40 500).state.isMemLog = false)
          ∧ (SameRegistry oneLiveDisabled (free dlFound oneLiveDisabled 100).state
            ∧ (free dlFound oneLiveDisabled 100).state.isMemLog = false))
      ∧ (enableMemoryLogging oneLiveDisabled true).state
          = { oneLiveDisabled with isMemLog := true }
      ∧ oneLive.isMemLog = true
      ∧ (enableMemoryLogging oneLive false).state = { oneLive with isMemLog := false } :=
  ⟨rfl,
   (disabled_logging_freezes_registry dlFound oneLiveDisabled 40 2 100 500 true).1 rfl,
   (disabled_logging_freezes_registry dlFound oneLiveDisabled 40 2 100 500 true).2,
   rfl,
   (disabled_logging_freezes_registry dlFound oneLive 40 2 100 500 false).2⟩

/-- C8 (the code at the failing input): address `100` is tracked with size `40` and logging
is enabled; `realloc(100, 0)` is answered by `NULL`, as an allocator that frees on a
zero-size request does. The call completes, and the record is still live: `allocationCount`
is still `1`, `totalFreed` is still `0`, and `100` is still tracked with size `40`. -/
theorem realloc_zero_null_answer_keeps_record :
    oneLive.isMemLog = true
      ∧ Tracked oneLive 100 40
      ∧ (realloc dlFound oneLive 100 0 0).aborted = false
      ∧ (realloc dlFound oneLive 100 0 0).state.allocationCount = 1
      ∧ (realloc dlFound oneLive 100 0 0).state.totalFreed = 0
      ∧ Tracked (realloc dlFound oneLive 100 0 0).state 100 40 :=
  ⟨rfl, ⟨0, by decide, rfl⟩, rfl, rfl, rfl, ⟨0, by decide, rfl⟩⟩

/-- C8, the other answer: when `realloc(ptr, 0)` for a non-null tracked `ptr` is answered by
a non-null pointer, the first live slot holding `ptr` is swap-removed (its size is added to
`totalFreed`, `allocationCount` drops by one, nothing is inserted). -/
theorem realloc_zero_nonnull_answer_removes (dl : Dlsym) (s : State) (ptr q : Nat)
    (hdl : dl.realloc ≠ 0) (hlog : s.isMemLog = true) (hptr : ptr ≠ 0) (hq : q ≠ 0)
    (h : ∃ j, j < s.allocationCount ∧ (s.allocations j).pointer = ptr) :
    ∃ j, j < s.allocationCount ∧ (s.allocations j).pointer = ptr
      ∧ (∀ m, m < j → (s.allocations m).pointer ≠ ptr)
      ∧ (realloc dl s ptr 0 q).state = swapRemove (init_real_functions dl s).2.1 j := by
  rw [(realloc_logged dl s ptr 0 q hdl hlog hq).2]
  simp only [reallocTrack, hptr, if_false, if_true]
  rcases removeLoop_spec ptr false s.allocationCount 0 (init_real_functions dl s).2.1 with
    ⟨_, _, h3⟩ | ⟨j, _, h2, h3, h4, _, h6⟩
  · obtain ⟨j, hj, hp⟩ := h
    exact absurd hp (h3 j (Nat.zero_le _) (by omega))
  · exact ⟨j, by omega, h3, fun m hm => h4 m (Nat.zero_le _) hm, h6⟩

/-- C9 (the code at the failing input): with logging enabled and an empty registry,
`realloc(NULL, 0)` is forwarded to the real `realloc`; answered by the non-null address `7`
it stores the record `{7, 0}`, `allocationCount` goes from `0` to `1`, and the registry is
not what it was. -/
theorem realloc_null_zero_mutates :
    loggingOn.isMemLog = true ∧ loggingOn.allocationCount = 0
      ∧ Event.invoke Fn.realloc 14 ∈ (realloc dlFound loggingOn 0 0 7).trace
      ∧ (realloc dlFound loggingOn 0 0 7).state.allocationCount = 1
      ∧ Tracked (realloc dlFound loggingOn 0 0 7).state 7 0
      ∧ ¬ SameRegistry loggingOn (realloc dlFound loggingOn 0 0 7).state := by
  refine ⟨rfl, rfl, by decide, rfl, ⟨0, by decide, rfl⟩, fun h => ?_⟩
  have hc : (realloc dlFound loggingOn 0 0 7).state.allocationCount = loggingOn.allocationCount :=
    h.2.2.1
  revert hc
  decide

/-- The extent of the defect behind C9, in any state with logging enabled (and
`totalAllocated` a `size_t` value): `realloc(NULL, 0)` never changes `totalAllocated` or
`totalFreed`, and changes nothing when the real `realloc` answers `NULL`; with a non-null
answer `p` (the real `realloc` being resolved) it stores `{p, 0}` at index `allocationCount`
below capacity, and sets the overflow flag at capacity. -/
theorem realloc_null_zero_effect (dl : Dlsym) (s : State) (p : Nat)
    (hlog : s.isMemLog = true) (hsz : s.totalAllocated < sizeMod) :
    (realloc dl s 0 0 p).state.totalAllocated = s.totalAllocated
      ∧ (realloc dl s 0 0 p).state.totalFreed = s.totalFreed
      ∧ (p = 0 → SameRegistry s (realloc dl s 0 0 p).state)
      ∧ (p ≠ 0 → dl.realloc ≠ 0 → s.allocationCount < MAX_ALLOCATIONS_TRACKING →
          (realloc dl s 0 0 p).state.allocations = setAt s.allocations s.allocationCount ⟨p, 0⟩
            ∧ (realloc dl s 0 0 p).state.allocationCount = s.allocationCount + 1
            ∧ (realloc dl s 0 0 p).state.isAllocationsArrayOverflow
                = s.isAllocationsArrayOverflow)
      ∧ (p ≠ 0 → dl.realloc ≠ 0 → ¬ s.allocationCount < MAX_ALLOCATIONS_TRACKING →
          (realloc dl s 0 0 p).state.allocations = s.allocations
            ∧ (realloc dl s 0 0 p).state.allocationCount = s.allocationCount
            ∧ (realloc dl s 0 0 p).state.isAllocationsArrayOverflow = true) := by
  have hmod : s.totalAllocated % sizeMod = s.totalAllocated := Nat.mod_eq_of_lt hsz
  refine ⟨?_, ?_, ?_, ?_, ?_⟩
  · rcases realloc_state_cases dl s 0 0 p with e | ⟨_, _, e⟩
    · rw [e]; rfl
    · rw [e]
      by_cases hc : s.allocationCount < MAX_ALLOCATIONS_TRACKING
      · simp [reallocTrack, record, hc, hmod]
      · simp [reallocTrack, record, hc, hmod]
  · rcases realloc_state_cases dl s 0 0 p with e | ⟨_, _, e⟩
    · rw [e]; rfl
    · rw [e]
      by_cases hc : s.allocationCount < MAX_ALLOCATIONS_TRACKING
      · simp [reallocTrack, record, hc]
      · simp [reallocTrack, record, hc]
  · intro hp
    rcases realloc_state_cases dl s 0 0 p with e | ⟨_, hp2, _⟩
    · rw [e]; exact ⟨rfl, rfl, rfl, rfl, rfl⟩
    · exact absurd hp hp2
  · intro hp hdl hc
    rw [(realloc_logged dl s 0 0 p hdl hlog hp).2]
    simp [reallocTrack, record, hc]
  · intro hp hdl hc
    rw [(realloc_logged dl s 0 0 p hdl hlog hp).2]
    simp [reallocTrack, record, hc]

/-- C10: in every state reachable from program start, logging enabled or not, `free(NULL)`
leaves `totalAllocated`, `totalFreed`, `allocationCount`, the array and the overflow flag
unchanged; no live record has a null address for the scan to match. -/
theorem free_null_leaves_registry (dl : Dlsym) (s : State) (h : Reachable dl s) :
    SameRegistry s (free dl s 0).state ∧ LiveNonNull s := by
  have hl := reachable_liveNonNull dl s h
  refine ⟨?_, hl⟩
  rw [free_null_state dl s hl]
  exact ⟨rfl, rfl, rfl, rfl, rfl⟩

/-- Witness for C10: the reachable state with one live record, logging enabled. -/
theorem free_null_leaves_registry_witness :
    Reachable dlFound oneLive
      ∧ SameRegistry oneLive (free dlFound oneLive 0).state ∧ LiveNonNull oneLive :=
  ⟨reachable_oneLive, free_null_leaves_registry dlFound oneLive reachable_oneLive⟩

/-- C11 (the code at the failing input): in the reachable state with one live record and
logging enabled, `free(NULL)` writes the unknown-address line for the null address, and
that is the only line it writes. -/
theorem free_null_reports_unknown :
    Reachable dlFound oneLive ∧ oneLive.isMemLog = true
      ∧ Event.print (Line.freeUnknown 0) ∈ (free dlFound oneLive 0).trace
      ∧ printed (free dlFound oneLive 0).trace = [Line.freeUnknown 0] :=
  ⟨reachable_oneLive, rfl, by decide, by decide⟩

/-- The extent of the defect behind C11: in every reachable state with logging enabled,
`free(NULL)` writes the unknown-address line for the null address, as its only line after
whatever the resolver reported; it never writes a `Freed n bytes` line. -/
theorem free_null_prints_unknown (dl : Dlsym) (s : State) (h : Reachable dl s)
    (hlog : s.isMemLog = true) :
    printed (free dl s 0).trace
        = printed (init_real_functions dl s).2.2 ++ [Line.freeUnknown 0]
      ∧ ∀ n a, Event.print (Line.freeFreed n a) ∉ (free dl s 0).trace := by
  have hl := reachable_liveNonNull dl s h
  obtain ⟨h1, _, h3⟩ :=
    removeLoop_no_match 0 true s.allocationCount 0 (init_real_functions dl s).2.1
      (fun j _ hj => hl j (by omega))
  have hp : printed (free dl s 0).trace
      = printed (init_real_functions dl s).2.2 ++ [Line.freeUnknown 0] := by
    simp [free, hlog, printed_append, h1, h3, printed]
  refine ⟨hp, fun n a hmem => ?_⟩
  have hm := (mem_printed _ _).mpr hmem
  rw [hp, List.mem_append, List.mem_singleton] at hm
  rcases hm with hm | hm
  · obtain ⟨f, hf⟩ := init_printed dl s _ hm
    exact Line.noConfusion hf
  · exact Line.noConfusion hm


/-- C12: whenever both calls return, `realloc(NULL, n)` answered by `r` leaves the profiler
in the same state as `malloc(n)` answered by `r` from the same starting state (in particular
the same live records, `allocationCount`, `totalAllocated`, `totalFreed` and overflow flag),
for every `n` and for null and non-null `r` alike. -/
theorem realloc_null_same_as_malloc (dl : Dlsym) (s : State) (n r : Nat)
    (hm : (malloc dl s n r).aborted = false) (hr : (realloc dl s 0 n r).aborted = false) :
    (realloc dl s 0 n r).state = (malloc dl s n r).state
      ∧ SameRegistry (malloc dl s n r).state (realloc dl s 0 n r).state := by
  have hm0 : (init_real_functions dl s).2.1.real_malloc ≠ 0 := by
    intro h0; simp [malloc, h0] at hm
  have hr0 : (init_real_functions dl s).2.1.real_realloc ≠ 0 := by
    intro h0; simp [realloc, h0] at hr
  have e : (realloc dl s 0 n r).state = (malloc dl s n r).state := by
    by_cases hlog : s.isMemLog = true
    · by_cases hp : r = 0
      · simp [malloc, realloc, hm0, hr0, hlog, hp]
      · simp [malloc, realloc, reallocTrack, hm0, hr0, hlog, hp]
    · simp [malloc, realloc, hm0, hr0, hlog]
  refine ⟨e, ?_⟩
  rw [e]
  exact ⟨rfl, rfl, rfl, rfl, rfl⟩

/-- Witness for C12: logging enabled, empty registry, `n = 40`, answer `100`. -/
theorem realloc_null_same_as_malloc_witness :
    (realloc dlFound loggingOn 0 40 100).state = (malloc dlFound loggingOn 40 100).state
      ∧ SameRegistry (malloc dlFound loggingOn 40 100).state
          (realloc dlFound loggingOn 0 40 100).state :=
  realloc_null_same_as_malloc dlFound loggingOn 40 100 rfl rfl

/-- C13 fails as stated: in the reachable state `staleTwice`, with logging enabled, address
`5` is tracked with recorded size `20`; `realloc(5, 8)` answered by `9` adds `10`, not `20`,
to `totalFreed`, and a record `{5, 20}` is still live afterwards. -/
theorem realloc_stale_record_counterexample :
    Reachable dlFound staleTwice ∧ staleTwice.isMemLog = true ∧ Tracked staleTwice 5 20
      ∧ (realloc dlFound staleTwice 5 8 9).state.totalFreed
          = (staleTwice.totalFreed + 10) % sizeMod
      ∧ (realloc dlFound staleTwice 5 8 9).state.totalFreed
          ≠ (staleTwice.totalFreed + 20) % sizeMod
      ∧ Tracked (realloc dlFound staleTwice 5 8 9).state 5 20 :=
  ⟨reachable_staleTwice, rfl, ⟨1, by decide, rfl⟩, by decide, by decide, ⟨0, by decide, rfl⟩⟩

/-- C13, amended: logging enabled, `allocationCount` within capacity, non-null `ptr` held by
exactly one live slot `i`, with size `sz`, `newSize > 0`, and a non-null answer `q` of the
real `realloc` (possibly `q == ptr`). Then `realloc(ptr, newSize)` returns `q`; the live
records are the old ones with `{ptr, sz}` taken out and `{q, newSize}` put in; the new record
sits in the last live slot and no other live slot holds `ptr`; `totalFreed` has grown by
`sz` and `totalAllocated` by `newSize` (modulo `2 ^ 64`); `allocationCount` and the overflow
flag are unchanged, also when the registry was full. -/
theorem realloc_moves_record (dl : Dlsym) (s : State) (ptr newSize q i sz : Nat)
    (hdl : dl.realloc ≠ 0) (hlog : s.isMemLog = true)
    (hcap : s.allocationCount ≤ MAX_ALLOCATIONS_TRACKING)
    (hptr : ptr ≠ 0) (hn : 0 < newSize) (hq : q ≠ 0)
    (hi : i < s.allocationCount) (hrec : s.allocations i = ⟨ptr, sz⟩)
    (huniq : ∀ m, m < s.allocationCount → (s.allocations m).pointer = ptr → m = i) :
    (realloc dl s ptr newSize q).aborted = false
      ∧ (realloc dl s ptr newSize q).ret = q
      ∧ ⟨ptr, sz⟩ ::ₘ liveRecords (realloc dl s ptr newSize q).state
          = ⟨q, newSize⟩ ::ₘ liveRecords s
      ∧ (realloc dl s ptr newSize q).state.allocations (s.allocationCount - 1) = ⟨q, newSize⟩
      ∧ (∀ m, m < s.allocationCount - 1 →
          ((realloc dl s ptr newSize q).state.allocations m).pointer ≠ ptr)
      ∧ (realloc dl s ptr newSize q).state.totalFreed = (s.totalFreed + sz) % sizeMod
      ∧ (realloc dl s ptr newSize q).state.totalAllocated
          = (s.totalAllocated + newSize) % sizeMod
      ∧ (realloc dl s ptr newSize q).state.allocationCount = s.allocationCount
      ∧ (realloc dl s ptr newSize q).state.isAllocationsArrayOverflow
          = s.isAllocationsArrayOverflow := by
  have hn0 : newSize ≠ 0 := Nat.pos_iff_ne_zero.mp hn
  have h0 := init_real_realloc_ne dl s hdl
  obtain ⟨ha, hst⟩ := realloc_logged dl s ptr newSize q hdl hlog hq
  have hret : (realloc dl s ptr newSize q).ret = q := by
    simp [realloc, h0, hlog, hq]
  -- the scan stops at slot `i`
  have hloop : (removeLoop ptr false s.allocationCount 0 (init_real_functions dl s).2.1).2.1
      = swapRemove (init_real_functions dl s).2.1 i := by
    rcases removeLoop_spec ptr false s.allocationCount 0 (init_real_functions dl s).2.1 with
      ⟨_, _, h3⟩ | ⟨j, _, h2, h3, _, _, h6⟩
    · exact absurd (by rw [init_allocations, hrec]) (h3 i (Nat.zero_le _) (by omega))
    · have hji : j = i := huniq j (by omega) h3
      rw [h6, hji]
  have hcnt : (swapRemove (init_real_functions dl s).2.1 i).allocationCount
      = s.allocationCount - 1 := rfl
  have hlt : (swapRemove (init_real_functions dl s).2.1 i).allocationCount
      < MAX_ALLOCATIONS_TRACKING := by rw [hcnt]; omega
  have hstate : (realloc dl s ptr newSize q).state
      = { (swapRemove (init_real_functions dl s).2.1 i) with
          allocations := setAt (swapRemove (init_real_functions dl s).2.1 i).allocations
            (s.allocationCount - 1) ⟨q, newSize⟩,
          allocationCount := s.allocationCount - 1 + 1,
          totalAllocated := (s.totalAllocated + newSize) % sizeMod } := by
    rw [hst]
    simp only [reallocTrack, hptr, hn0, if_false, init_allocationCount, hloop,
      record_below _ q newSize hlt]
    rfl
  have hsz : (s.allocations i).size = sz := by rw [hrec]
  refine ⟨ha, hret, ?_, ?_, ?_, ?_, ?_, ?_, ?_⟩
  · have hsw := liveRecords_swapRemove (init_real_functions dl s).2.1 i hi
    have hnew : liveRecords (realloc dl s ptr newSize q).state
        = ⟨q, newSize⟩ ::ₘ liveRecords (swapRemove (init_real_functions dl s).2.1 i) := by
      rw [hstate]
      exact liveRecords_setAt_succ _ _ _
    rw [hnew, Multiset.cons_swap]
    congr 1
    rw [← hrec]
    exact hsw
  · rw [hstate]; simp [setAt]
  · intro m hm
    rw [hstate]
    have hm1 : m ≠ s.allocationCount - 1 := by omega
    simp only [setAt, hm1, if_false, swapRemove, init_allocations, init_allocationCount]
    by_cases hmi : m = i
    · simp only [hmi, if_true]
      intro hp
      have := huniq (s.allocationCount - 1) (by omega) hp
      omega
    · simp only [hmi, if_false]
      intro hp
      exact hmi (huniq m (by omega) hp)
  · rw [hstate]; simp [swapRemove, hsz]
  · rw [hstate]
  · rw [hstate]; show s.allocationCount - 1 + 1 = s.allocationCount; omega
  · rw [hstate]; rfl

/-- Witness for C13, amended: the one live record `{100, 40}` resized in place to 80 bytes. -/
theorem realloc_moves_record_witness :
    (realloc dlFound oneLive 100 80 100).aborted = false
      ∧ (realloc dlFound oneLive 100 80 100).ret = 100
      ∧ ⟨100, 40⟩ ::ₘ liveRecords (realloc dlFound oneLive 100 80 100).state
          = ⟨100, 80⟩ ::ₘ liveRecords oneLive
      ∧ (realloc dlFound oneLive 100 80 100).state.allocations (oneLive.allocationCount - 1)
          = ⟨100, 80⟩
      ∧ (∀ m, m < oneLive.allocationCount - 1 →
          ((realloc dlFound oneLive 100 80 100).state.allocations m).pointer ≠ 100)
      ∧ (realloc dlFound oneLive 100 80 100).state.totalFreed
          = (oneLive.totalFreed + 40) % sizeMod
      ∧ (realloc dlFound oneLive 100 80 100).state.totalAllocated
          = (oneLive.totalAllocated + 80) % sizeMod
      ∧ (realloc dlFound oneLive 100 80 100).state.allocationCount = oneLive.allocationCount
      ∧ (realloc dlFound oneLive 100 80 100).state.isAllocationsArrayOverflow
          = oneLive.isAllocationsArrayOverflow :=
  realloc_moves_record dlFound oneLive 100 80 100 0 40 (by decide) rfl (by decide)
    (by decide) (by decide) (by decide) (by decide) rfl
    (fun m hm _ => by
      have h1 : oneLive.allocationCount = 1 := rfl
      omega)

/-- C14: capacity exhaustion is absorbed. With logging enabled and
`allocationCount == MAX_ALLOCATIONS_TRACKING`, a `malloc(size)`, a `calloc(num, size)` and a
`realloc(NULL, size)` answered by a non-null `p` each return `p`, leave the array and
`allocationCount` unchanged, set the overflow flag, and add the requested bytes (`size`,
`num * size`, `size`) to `totalAllocated`. -/
theorem capacity_exhaustion_absorbed (dl : Dlsym) (s : State) (num size p : Nat)
    (hdm : dl.malloc ≠ 0) (hdc : dl.calloc ≠ 0) (hdr : dl.realloc ≠ 0)
    (hlog : s.isMemLog = true) (hfull : s.allocationCount = MAX_ALLOCATIONS_TRACKING)
    (hp : p ≠ 0) :
    Absorbed s (malloc dl s size p) p size
      ∧ Absorbed s (calloc dl s num size p) p ((num * size) % sizeMod)
      ∧ Absorbed s (realloc dl s 0 size p) p size := by
  have hf : ¬ s.allocationCount < MAX_ALLOCATIONS_TRACKING := by rw [hfull]; exact lt_irrefl _
  exact ⟨malloc_full dl s size p hdm hlog hp hf, calloc_full dl s num size p hdc hlog hp hf,
    realloc_null_full dl s size p hdr hlog hp hf⟩

/-- Witness for C14: the full registry with a clear overflow flag. -/
theorem capacity_exhaustion_absorbed_witness :
    Absorbed fullQuiet (malloc dlFound fullQuiet 24 5000) 5000 24
      ∧ Absorbed fullQuiet (calloc dlFound fullQuiet 3 24 5000) 5000 ((3 * 24) % sizeMod)
      ∧ Absorbed fullQuiet (realloc dlFound fullQuiet 0 24 5000) 5000 24 :=
  capacity_exhaustion_absorbed dlFound fullQuiet 3 24 5000 (by decide) (by decide) (by decide)
    rfl rfl (by decide)

/-- C15 (the code at two failing inputs): after exactly `MAX_ALLOCATIONS_TRACKING` tracked
allocations (`filled`) nothing was dropped and the overflow flag is clear, yet
`printMemoryUsage` writes the caveat; after one allocation more and a `free` of address `1`
the overflow flag is set, yet `printMemoryUsage` does not write the caveat. Both states are
reachable. -/
theorem printMemoryUsage_caveat_follows_count :
    (Reachable dlFound (filled MAX_ALLOCATIONS_TRACKING)
        ∧ (filled MAX_ALLOCATIONS_TRACKING).isAllocationsArrayOverflow = false
        ∧ Event.print Line.important
            ∈ (printMemoryUsage (filled MAX_ALLOCATIONS_TRACKING)).trace)
      ∧ (Reachable dlFound
            (step dlFound (filled (MAX_ALLOCATIONS_TRACKING + 1)) (Call.free 1)).state
        ∧ (step dlFound (filled (MAX_ALLOCATIONS_TRACKING + 1))
            (Call.free 1)).state.isAllocationsArrayOverflow = true
        ∧ Event.print Line.important
            ∉ (printMemoryUsage
                (step dlFound (filled (MAX_ALLOCATIONS_TRACKING + 1)) (Call.free 1)).state).trace) :=
  caveat_at_capacity MAX_ALLOCATIONS_TRACKING rfl

/-- C16 (the code at two failing inputs). When only the lookup of `free` fails, `malloc(8)`
has `init_real_functions` return `-1` and report the failure, and then carries on: it invokes
the real `malloc` and returns its answer, the process is not terminated. When the lookup of
`malloc` itself fails, the failure is reported and the call still goes on to invoke
`real_malloc`, which is null. -/
theorem malloc_proceeds_after_failed_lookup :
    ((init_real_functions dlNoFree initial).1 = -1
        ∧ printed (malloc dlNoFree initial 8 100).trace = [Line.errorLoading Fn.free]
        ∧ Event.invoke Fn.malloc 11 ∈ (malloc dlNoFree initial 8 100).trace
        ∧ (malloc dlNoFree initial 8 100).aborted = false
        ∧ (malloc dlNoFree initial 8 100).ret = 100)
      ∧ ((init_real_functions dlNoMalloc initial).1 = -1
        ∧ printed (malloc dlNoMalloc initial 8 100).trace = [Line.errorLoading Fn.malloc]
        ∧ Event.invoke Fn.malloc 0 ∈ (malloc dlNoMalloc initial 8 100).trace) := by
  decide

/-- C19: swap-remove in `free` with logging enabled. If `i` is the lowest live index whose
record has address `a`, then after `free(a)` `allocationCount` has dropped by one,
`totalFreed` has grown by that record's size, slot `i` holds the former last live record,
every other slot is unchanged, and the live records are the old ones minus exactly that
record. If no live record has address `a`, `totalAllocated`, `totalFreed`,
`allocationCount`, the array and the overflow flag are unchanged. -/
theorem free_swap_remove (dl : Dlsym) (s : State) (a : Nat) (hlog : s.isMemLog = true) :
    (∀ i, i < s.allocationCount → (s.allocations i).pointer = a →
        (∀ m, m < i → (s.allocations m).pointer ≠ a) → SwapRemoved s (free dl s a).state i)
      ∧ ((∀ m, m < s.allocationCount → (s.allocations m).pointer ≠ a) →
          SameRegistry s (free dl s a).state) := by
  constructor
  · intro i hi hp hfirst
    obtain ⟨j, hj, hpj, hjfirst, hst⟩ := free_tracked dl s a hlog ⟨i, hi, hp⟩
    have hji : j = i := by
      rcases Nat.lt_trichotomy j i with h | h | h
      · exact absurd hpj (hfirst j h)
      · exact h
      · exact absurd hp (hjfirst i h)
    rw [hst, hji]
    exact swapRemoved_swapRemove (init_real_functions dl s).2.1 i hi
  · intro hnone
    rw [free_state_logged dl s a hlog]
    obtain ⟨_, h2, _⟩ :=
      removeLoop_no_match a true s.allocationCount 0 (init_real_functions dl s).2.1
        (fun j _ hj => hnone j (by omega))
    rw [h2]
    exact ⟨rfl, rfl, rfl, rfl, rfl⟩

/-- Witness for C19: `free(100)` and `free(7)` in the state with the one live record
`{100, 40}`. -/
theorem free_swap_remove_witness :
    oneLive.isMemLog = true
      ∧ SwapRemoved oneLive (free dlFound oneLive 100).state 0
      ∧ SameRegistry oneLive (free dlFound oneLive 7).state :=
  ⟨rfl,
   (free_swap_remove dlFound oneLive 100 rfl).1 0 (by decide) rfl
     (fun m hm => absurd hm (Nat.not_lt_zero m)),
   (free_swap_remove dlFound oneLive 7 rfl).2 (fun m hm => by
     have h1 : oneLive.allocationCount = 1 := rfl
     have hm0 : m = 0 := by omega
     rw [hm0]
     decide)⟩

/-- C20 (the code at the failing input): with logging enabled, `calloc(5, 20)` answered by
address `200` records `{200, 100}` and adds `100` to `totalAllocated`, but its diagnostic
line reports `100` bytes as an array of `20` elements (the element size), not of `5`. -/
theorem calloc_reports_element_size :
    loggingOn.isMemLog = true
      ∧ Tracked (calloc dlFound loggingOn 5 20 200).state 200 100
      ∧ (calloc dlFound loggingOn 5 20 200).state.totalAllocated = 100
      ∧ printed (calloc dlFound loggingOn 5 20 200).trace = [Line.callocAllocated 100 20 200]
      ∧ Event.print (Line.callocAllocated 100 5 200)
          ∉ (calloc dlFound loggingOn 5 20 200).trace :=
  ⟨rfl, ⟨0, by decide, by decide⟩, by decide, by decide, by decide⟩

/-- C17 fails as stated: `enableMemoryLogging(true); p = malloc(10);
enableMemoryLogging(false); free(p); enableMemoryLogging(true); q = malloc(20);` with the
real allocator answering address `5` both times. Every answer is fresh (the block was free
again when it was handed out the second time) and every call returns, yet slots `0` and `1`
both hold address `5`. -/
theorem stale_record_duplicates_address :
    freshRun (fun _ => false)
        [Call.enableMemoryLogging true, Call.malloc 10 5, Call.enableMemoryLogging false,
         Call.free 5, Call.enableMemoryLogging true, Call.malloc 20 5] = true
      ∧ (runCalls dlFound initial
          [Call.enableMemoryLogging true, Call.malloc 10 5, Call.enableMemoryLogging false,
           Call.free 5, Call.enableMemoryLogging true, Call.malloc 20 5]).isSome = true
      ∧ Reachable dlFound staleTwice
      ∧ staleTwice.allocationCount = 2
      ∧ (staleTwice.allocations 0).pointer = 5 ∧ (staleTwice.allocations 1).pointer = 5
      ∧ ¬ LiveDistinct staleTwice := by
  refine ⟨by decide, by decide, reachable_staleTwice, rfl, rfl, rfl, fun h => ?_⟩
  have h01 : (0 : Nat) = 1 := h 0 1 (by decide) (by decide) rfl
  exact absurd h01 (by decide)

/-- C17, amended: along any sequence of calls from program start that all return, if every
answer of the real allocator is fresh (not an address still allocated), every `free` or
`realloc` of an address held by a live record is made with logging enabled, and no such
`realloc` to size zero is answered `NULL`, then no two live records hold the same address.
The heap `h` at program start is arbitrary. -/
theorem live_addresses_distinct (dl : Dlsym) (h : Nat → Bool) (cs : List Call) (t : State)
    (hfresh : freshRun h cs = true) (hseen : releasesSeen dl initial cs = true)
    (hrun : runCalls dl initial cs = some t) :
    LiveDistinct t := by
  have hg : GoodRegistry h initial :=
    ⟨fun x hx => absurd hx (Multiset.not_mem_zero x), Multiset.nodup_zero⟩
  obtain ⟨h2, hg2⟩ := runCalls_goodRegistry dl cs h initial t hg hfresh hseen hrun
  exact liveDistinct_of_nodup t hg2.2

/-- Witness for C17, amended: the run `tidyCalls` from an empty heap. -/
theorem live_addresses_distinct_witness :
    freshRun (fun _ => false) tidyCalls = true
      ∧ releasesSeen dlFound initial tidyCalls = true
      ∧ runCalls dlFound initial tidyCalls = some (runAll dlFound initial tidyCalls)
      ∧ LiveDistinct (runAll dlFound initial tidyCalls) :=
  ⟨by decide, by decide, rfl,
   live_addresses_distinct dlFound (fun _ => false) tidyCalls (runAll dlFound initial tidyCalls)
     (by decide) (by decide) rfl⟩

/-- C21 fails as stated: after `enableMemoryLogging(true); p = malloc(2^63); free(p);
q = malloc(2^63);` the overflow flag is clear, `totalAllocated` has wrapped around to `0`,
`totalFreed` is `2^63` and the one live record has size `2^63`: in exact arithmetic
`totalFreed` plus the live bytes exceeds `totalAllocated`, and `totalAllocated - totalFreed`
underflows. -/
theorem accounting_wraps_around :
    Reachable dlFound (runAll dlFound initial wrapCalls)
      ∧ (runAll dlFound initial wrapCalls).isAllocationsArrayOverflow = false
      ∧ (runAll dlFound initial wrapCalls).totalAllocated = 0
      ∧ (runAll dlFound initial wrapCalls).totalFreed = 9223372036854775808
      ∧ liveBytes (runAll dlFound initial wrapCalls) = 9223372036854775808
      ∧ ¬ ((runAll dlFound initial wrapCalls).totalFreed
            + liveBytes (runAll dlFound initial wrapCalls)
          ≤ (runAll dlFound initial wrapCalls).totalAllocated)
      ∧ (runAll dlFound initial wrapCalls).totalAllocated
          < (runAll dlFound initial wrapCalls).totalFreed := by
  refine ⟨reachable_runAll dlFound _ initial Reachable.init, by decide, by decide, by decide,
    by decide, by decide, by decide⟩

/-- C21, amended: let `t` be the state after any sequence of calls from program start (any
arguments, any answers of the real allocator, logging toggled at will). While the overflow
flag is clear, `totalFreed` plus the live bytes equals `totalAllocated` modulo `2 ^ 64`, and
the reported `totalAllocated - totalFreed` is the live bytes modulo `2 ^ 64`. If no addition
to `totalAllocated` wrapped around along the way, then in exact arithmetic `totalFreed`
plus the live bytes is at most `totalAllocated`, the reported difference does not
underflow, and while the overflow flag is clear the sum equals `totalAllocated` and the
reported difference is the live bytes. -/
theorem accounting_invariant (dl : Dlsym) (cs : List Call) (t : State)
    (ht : runAll dl initial cs = t) :
    (t.isAllocationsArrayOverflow = false →
        (t.totalFreed + liveBytes t) % sizeMod = t.totalAllocated % sizeMod
          ∧ subWrap t.totalAllocated t.totalFreed = liveBytes t % sizeMod)
      ∧ (neverWraps dl initial cs = true →
          t.totalFreed + liveBytes t ≤ t.totalAllocated
            ∧ t.totalFreed ≤ t.totalAllocated
            ∧ subWrap t.totalAllocated t.totalFreed = t.totalAllocated - t.totalFreed
            ∧ (t.isAllocationsArrayOverflow = false →
                t.totalFreed + liveBytes t = t.totalAllocated
                  ∧ subWrap t.totalAllocated t.totalFreed = liveBytes t)) := by
  subst ht
  have hm := runAll_acctMod dl cs initial acct_initial.1
  refine ⟨fun hov => ⟨hm.2 hov, subWrap_of_acctMod _ hm hov⟩, fun hw => ?_⟩
  have hx := runAll_acctExact dl cs initial acct_initial.2 hw
  obtain ⟨hle, hsub⟩ := subWrap_of_acctExact _ hx
  refine ⟨hx.1, hle, hsub, fun hov => ⟨hx.2.1 hov, ?_⟩⟩
  rw [hsub]
  have := hx.2.1 hov
  omega

/-- Witness for C21, amended: the run `tidyCalls`, which neither overflows nor wraps. -/
theorem accounting_invariant_witness :
    (runAll dlFound initial tidyCalls).isAllocationsArrayOverflow = false
      ∧ neverWraps dlFound initial tidyCalls = true
      ∧ (runAll dlFound initial tidyCalls).totalFreed + liveBytes (runAll dlFound initial tidyCalls)
          = (runAll dlFound initial tidyCalls).totalAllocated
      ∧ subWrap (runAll dlFound initial tidyCalls).totalAllocated
          (runAll dlFound initial tidyCalls).totalFreed
          = liveBytes (runAll dlFound initial tidyCalls) :=
  ⟨by decide, by decide,
   ((accounting_invariant dlFound tidyCalls (runAll dlFound initial tidyCalls) rfl).2
      (by decide)).2.2.2 (by decide)⟩

end Memprof
